import Mathlib

/-!
Ordered-dither screen generation (`.genordered`), halftone object types, Type 1
font parameters and PostScript Functions.

A shallow embedding of `zgenordered`, `ht_object_type_from_name` and `zsetobjtypeHT`
from `psi/zht2.c`, of `charstring_font_params` from `psi/zfont1.c`, of the
function builders and operators of `psi/zfunc.c`, and of the initialisation of the
ASCII85Decode state from `base/sa85d.h`.

Conventions of the embedding.

* C `int` values are unbounded integers (`Int`); the loop counters `level` and
  `cur_pix`, which start at 0 and only count upwards, are natural numbers.  The
  development describes executions in which no `int` computation overflows.
* C `double`/`float` values are rationals (`ℚ`): the arithmetic of the level sweep is
  exact.  (`1.0 / num_pix` is only meaningful for `num_pix ≠ 0`.)
* A byte is a natural number below 256; storing an `int` into a byte reduces it
  modulo 256.
* The PostScript string that `ialloc_string` returns is a list of bytes, and the C
  pointer `thresh` into it is an offset.  Stores that fall outside the string are
  outside the model and leave it unchanged.
-/

namespace Ghostpdl

/-! ## Error codes (`gserrors.h`) -/

/-- Modelled from the spec: the error codes of `gserrors.h` are not among the sources;
this is `gs_error_invalidaccess`. -/
def gs_error_invalidaccess : Int := -7
/-- Modelled from the spec: `gs_error_rangecheck` of `gserrors.h`, the spec's
`RangeError`. -/
def gs_error_rangecheck : Int := -15
/-- Modelled from the spec: `gs_error_stackunderflow` of `gserrors.h`. -/
def gs_error_stackunderflow : Int := -17
/-- Modelled from the spec: `gs_error_typecheck` of `gserrors.h`, the spec's
`TypeError`. -/
def gs_error_typecheck : Int := -20
/-- Modelled from the spec: `gs_error_undefined` of `gserrors.h`, the spec's
`UndefinedError`. -/
def gs_error_undefined : Int := -21
/-- Modelled from the spec: `gs_error_VMerror` of `gserrors.h`, the spec's
`OutOfMemory`. -/
def gs_error_VMerror : Int := -25

/-! ## The dot mask handed over by the screen generator -/

/-- Modelled from the spec: the `htsc_dig_grid_t` of `gen_ordered.h` (the spec's
DotMask) is not among the sources.  These are the fields `zgenordered` reads: a width,
a height, and `data`, the `2 * width * height` integers holding the `(x, y)` pairs of
the turn-on sequence. -/
structure htsc_dig_grid_t where
  width : Int
  height : Int
  data : List Int

/-- The C expression `final_mask.data[i]`. -/
def data_at (fm : htsc_dig_grid_t) (i : Nat) : Int := fm.data.getD i 0

/-- The store `p[i] = v` of an `int` value into a byte of the string `p`. -/
def store_byte (str : List Nat) (i : Int) (v : Int) : List Nat :=
  if 0 ≤ i then str.set i.toNat (v % 256).toNat else str

/-! ## The level sweep of `zgenordered` (zht2.c, lines 553-571) -/

/-- The local variables the sweep updates: `cur_pix`, `cur_value` and the string
that `thresh` points into. -/
structure sweep_state where
  cur_pix : Nat
  cur_value : ℚ
  str : List Nat

/-- The subscript `final_mask.data[2*cur_pix] + (width*final_mask.data[2*cur_pix+1])`. -/
def thresh_index (fm : htsc_dig_grid_t) (width : Int) (cur_pix : Nat) : Int :=
  data_at fm (2 * cur_pix) + width * data_at fm (2 * cur_pix + 1)

/-- The `while` loop of one level: cells are given `255 - level` while `cur_value`
is below the end of the level's window, or while the next cell is the forced one. -/
def sweep_while (fm : htsc_dig_grid_t) (thresh width num_pix : Int)
    (delta_value end_value : ℚ) (level : Nat) (s : sweep_state) : sweep_state :=
  if s.cur_value < end_value - delta_value * (1 / 256) ∨
      (s.cur_pix : Int) + 1 = Int.tdiv num_pix 2 then
    let str := store_byte s.str (thresh + thresh_index fm width s.cur_pix) (255 - (level : Int))
    let cur_pix := s.cur_pix + 1
    if (cur_pix : Int) ≥ num_pix then
      ⟨cur_pix, s.cur_value, str⟩
    else
      sweep_while fm thresh width num_pix delta_value end_value level
        ⟨cur_pix, s.cur_value + delta_value, str⟩
  else s
termination_by (num_pix - (s.cur_pix : Int)).toNat
decreasing_by omega

/-- The `for (level = 0; level < 256; level++)` loop, entered at `level`. -/
def sweep_levels (fm : htsc_dig_grid_t) (thresh width num_pix : Int)
    (delta_value : ℚ) (level : Nat) (s : sweep_state) : sweep_state :=
  if level < 256 then
    let end_value₀ : ℚ := ((1 + level : Nat) : ℚ) / 255
    let end_value : ℚ := if end_value₀ > 255 then 255 else end_value₀
    let s₁ := sweep_while fm thresh width num_pix delta_value end_value level s
    if (s₁.cur_pix : Int) ≥ num_pix then s₁
    else sweep_levels fm thresh width num_pix delta_value (level + 1) s₁
  else s
termination_by 256 - level

/-- The trailing loop `for (; cur_pix < num_pix; cur_pix++) thresh[...] = 0`. -/
def sweep_fill (fm : htsc_dig_grid_t) (thresh width num_pix : Int)
    (s : sweep_state) : sweep_state :=
  if (s.cur_pix : Int) < num_pix then
    sweep_fill fm thresh width num_pix
      ⟨s.cur_pix + 1, s.cur_value,
        store_byte s.str (thresh + thresh_index fm width s.cur_pix) 0⟩
  else s
termination_by (num_pix - (s.cur_pix : Int)).toNat
decreasing_by omega

/-- The threshold array made from the turn-on sequence: the block of `zgenordered`
from `int cur_pix = 0` to the end of the fill loop, run on the string `str` with the
pointer `thresh` at offset `thresh`. -/
def make_thresholds (fm : htsc_dig_grid_t) (thresh : Int) (str : List Nat) : List Nat :=
  let width := fm.width
  let num_pix := width * fm.height
  let delta_value : ℚ := 1 / (num_pix : ℚ)
  let s := sweep_levels fm thresh width num_pix delta_value 0 ⟨0, 0, str⟩
  (sweep_fill fm thresh width num_pix s).str

/-- The C expression `p[i]` on a string `p`, as a value. -/
def byte_at (str : List Nat) (i : Int) : Nat :=
  if 0 ≤ i then str.getD i.toNat 0 else 0

/-! ## PostScript objects -/

/-- Modelled from the spec: the access attributes of a PostScript object (the `a_write`,
`a_read`, `a_execute` and `a_executable` bits of `iref.h`, which is not among the
sources), one flag per bit. -/
structure ref_attrs where
  write : Bool
  read : Bool
  execute : Bool
  executable : Bool
deriving DecidableEq

/-- The attribute set `a_all = a_write + a_read + a_execute`. -/
def a_all : ref_attrs := ⟨true, true, true, false⟩
/-- The attribute bit `a_execute`. -/
def a_execute : ref_attrs := ⟨false, false, true, false⟩
/-- The attribute bit `a_executable`. -/
def a_executable : ref_attrs := ⟨false, false, false, true⟩

/-- The union `a | b` of two attribute sets. -/
def attrs_or (a b : ref_attrs) : ref_attrs :=
  ⟨a.write || b.write, a.read || b.read, a.execute || b.execute, a.executable || b.executable⟩

/-- The intersection `a & b` of two attribute sets. -/
def attrs_and (a b : ref_attrs) : ref_attrs :=
  ⟨a.write && b.write, a.read && b.read, a.execute && b.execute, a.executable && b.executable⟩

/-- The operator procedures of `zfunc.c` that an operator object can point to, and
any other procedure, told apart by a number. -/
inductive op_proc where
  | zbuildfunction
  | zexecfunction
  | zisencapfunction
  | other (n : Nat)
deriving DecidableEq

/-- Modelled from the spec: the PostScript object (`ref` of `iref.h`) is not among the
sources.  These are the types the operators read or build.  A name carries its
string; an array carries its access attributes and its elements; a dictionary
carries its read access and its entries, keyed by name string; a structure carries
its attributes and the address of the structure; an operator carries its attributes
and its procedure. -/
inductive ref where
  | t_null
  | t_boolean (boolval : Bool)
  | t_integer (intval : Int)
  | t_real (realval : ℚ)
  | t_name (bytes : List Char)
  | t_string (bytes : List Nat)
  | t_array (attrs : ref_attrs) (refs : List ref)
  | t_dictionary (readable : Bool) (entries : List (String × ref))
  | t_struct (attrs : ref_attrs) (pstruct : Nat)
  | t_astruct (attrs : ref_attrs) (pstruct : Nat)
  | t_operator (attrs : ref_attrs) (opproc : op_proc)

/-- Modelled from the spec: `dict_find_string` (idict.c) is not among the sources; it
looks a key up in a dictionary, giving the value when the key is present. -/
def dict_find_string (pdict : ref) (kstr : String) : Option ref :=
  match pdict with
  | ref.t_dictionary _ entries => entries.lookup kstr
  | _ => none

/-- Modelled from the spec: `dict_int_param` (idparam.c) is not among the sources; §6
gives every integer key a legal range and a default.  The result is the return code
and the new `*pvalue`: code 1 and the default when the key is absent, code 0 and the
value for an integer (or integral real) within `minval..maxval`, rangecheck outside
the range, typecheck for any other object; `*pvalue` is left alone on an error. -/
def dict_int_param (pdict : ref) (kstr : String) (minval maxval defaultval : Int)
    (pvalue : Int) : Int × Int :=
  match dict_find_string pdict kstr with
  | none =>
    if defaultval < minval ∨ defaultval > maxval then (gs_error_undefined, pvalue)
    else (1, defaultval)
  | some (ref.t_integer ival) =>
    if ival < minval ∨ ival > maxval then (gs_error_rangecheck, pvalue) else (0, ival)
  | some (ref.t_real realval) =>
    if realval < minval ∨ realval > maxval then (gs_error_rangecheck, pvalue)
    else if ((Int.floor realval : Int) : ℚ) ≠ realval then (gs_error_rangecheck, pvalue)
    else (0, Int.floor realval)
  | some _ => (gs_error_typecheck, pvalue)

/-- Modelled from the spec: `dict_float_param` (idparam.c) is not among the sources.
Code 1 and the default when the key is absent, code 0 and the value for a number,
typecheck otherwise. -/
def dict_float_param (pdict : ref) (kstr : String) (defaultval : ℚ) : Int × ℚ :=
  match dict_find_string pdict kstr with
  | none => (1, defaultval)
  | some (ref.t_integer ival) => (0, (ival : ℚ))
  | some (ref.t_real realval) => (0, realval)
  | some _ => (gs_error_typecheck, defaultval)

/-- Modelled from the spec: `dict_bool_param` (idparam.c) is not among the sources.
Code 1 and the default when the key is absent, code 0 and the value for a boolean,
typecheck otherwise. -/
def dict_bool_param (pdict : ref) (kstr : String) (defaultval : Bool) : Int × Bool :=
  match dict_find_string pdict kstr with
  | none => (1, defaultval)
  | some (ref.t_boolean b) => (0, b)
  | some _ => (gs_error_typecheck, defaultval)

/-! ## Screen parameters -/

/-- Modelled from the spec: the `output_format_type` enumeration of `gen_ordered.h` is
not among the sources; `zgenordered` names `OUTPUT_TOS`, `OUTPUT_PS` and `OUTPUT_RAW`. -/
inductive output_format_type where
  | OUTPUT_TOS
  | OUTPUT_PS
  | OUTPUT_PPM
  | OUTPUT_RAW
  | OUTPUT_RAW16
deriving DecidableEq

/-- Modelled from the spec: the `htsc_param_t` of `gen_ordered.h` (the spec's
ScreenParams) is not among the sources.  These are the fields `zgenordered` sets. -/
structure htsc_param_t where
  targ_scr_ang : Int
  targ_lpi : Int
  horiz_dpi : ℚ
  vert_dpi : ℚ
  targ_quant_spec : Bool
  targ_quant : Int
  targ_size : Int
  targ_size_spec : Bool
  spot_type : Int
  holladay : Bool
  output_format : output_format_type

/-- What `zgenordered` takes from its surroundings: the device resolution, the
screen generator and its defaults (`gen_ordered.c`, not among the sources), and the
outcome of each allocator and dictionary call. -/
structure genordered_env where
  /-- The `currdevice->HWResolution[0]` value. -/
  HWResolution0 : ℚ
  /-- The `currdevice->HWResolution[1]` value. -/
  HWResolution1 : ℚ
  /-- The parameters left by `htsc_set_default_params`. -/
  default_params : htsc_param_t
  /-- The `CUSTOM` enumerator of the spot types. -/
  CUSTOM : Int
  /-- The return code and the final mask of `htsc_gen_ordered`. -/
  htsc_gen_ordered : htsc_param_t → Int × htsc_dig_grid_t
  /-- Whether `ialloc_string` of the given size succeeds. -/
  string_avail : Int → Bool
  /-- The bytes found in a freshly allocated string. -/
  fresh_byte : Nat → Nat
  /-- The return code of `ialloc_ref_array` for the given size. -/
  array_code : Int → Int
  /-- The elements found in a freshly allocated array. -/
  fresh_ref : Nat → ref
  /-- The return code of `dict_create`. -/
  dict_create_code : Int
  /-- The return code of `idict_put_string` for the given key. -/
  dict_put_code : String → Int

/-- Modelled from the spec: `ialloc_string` (ialloc.h) is not among the sources.  The
call gives a fresh string of `nbytes` bytes with whatever contents the memory had, or
null when the allocation fails. -/
def ialloc_string (env : genordered_env) (nbytes : Int) : Option (List Nat) :=
  if env.string_avail nbytes then
    some ((List.range nbytes.toNat).map (fun i => env.fresh_byte i % 256))
  else none

/-- Modelled from the spec: `idict_put_string` (iddict.h) is not among the sources.
The call on the dictionary in `op` gives its return code and the dictionary
afterwards: unchanged on an error, holding the value under the key otherwise. -/
def idict_put_string (env : genordered_env) (op : ref) (kstr : String) (pvalue : ref) :
    Int × ref :=
  if env.dict_put_code kstr < 0 then (env.dict_put_code kstr, op)
  else
    match op with
    | ref.t_dictionary readable entries =>
      (env.dict_put_code kstr,
        ref.t_dictionary readable ((kstr, pvalue) :: entries.filter (fun e => e.1 != kstr)))
    | _ => (env.dict_put_code kstr, op)

/-! ## The operator `.genordered` -/

/-- The `OutputType` dispatch of `zgenordered` (lines 441, 461-475): the output type
selected, or the error code returned at once. -/
def genordered_output_type (op : ref) : Except Int output_format_type :=
  match dict_find_string op "OutputType" with
  | some out_type_name =>
    match out_type_name with
    | ref.t_name namestr =>
      if namestr.length = 8 ∧ namestr.take 8 = "TOSArray".data then
        Except.ok output_format_type.OUTPUT_TOS
      else if namestr.length = 5 ∧ namestr.take 5 = "Type3".data then
        Except.ok output_format_type.OUTPUT_PS
      else if namestr.length = 12 ∧ namestr.take 12 = "ThreshString".data then
        Except.ok output_format_type.OUTPUT_RAW
      else Except.error gs_error_undefined
    | _ => Except.error gs_error_typecheck
  | none => Except.ok output_format_type.OUTPUT_PS

/-- The parameter phase of `zgenordered` after the output type (lines 454-457 and
476-501): the parameters passed to the screen generator, or the error code returned
at once. -/
def genordered_screen_params (env : genordered_env) (op : ref) : Except Int htsc_param_t :=
  let params := env.default_params
  let params := { params with horiz_dpi := env.HWResolution0, vert_dpi := env.HWResolution1 }
  let r := dict_int_param op "Angle" 0 360 0 params.targ_scr_ang
  if r.1 < 0 then Except.error gs_error_undefined else
  let params := { params with targ_scr_ang := r.2 }
  let r := dict_int_param op "Frequency" 1 0x7fff 75 params.targ_lpi
  if r.1 < 0 then Except.error gs_error_undefined else
  let params := { params with targ_lpi := r.2 }
  let r := dict_float_param op "HResolution" 300
  if r.1 < 0 then Except.error gs_error_undefined else
  let params := if r.1 = 0 then { params with horiz_dpi := r.2 } else params
  let r := dict_float_param op "VResolution" 300
  if r.1 < 0 then Except.error gs_error_undefined else
  let params := if r.1 = 0 then { params with vert_dpi := r.2 } else params
  let r := dict_int_param op "Levels" 1 0x7fff 256 params.targ_quant
  if r.1 < 0 then Except.error gs_error_undefined else
  let params := { params with targ_quant := r.2 }
  let params := if r.1 = 0 then { params with targ_quant_spec := true } else params
  let r := dict_int_param op "SuperCellSize" 1 0x7fff 1 params.targ_size
  if r.1 < 0 then Except.error gs_error_undefined else
  let params := { params with targ_size := r.2 }
  let params := if r.1 = 0 then { params with targ_size_spec := true } else params
  let r := dict_int_param op "DotShape" 0 (env.CUSTOM - 1) 0 params.spot_type
  if r.1 < 0 then Except.error gs_error_undefined else
  let params := { params with spot_type := r.2 }
  let r := dict_bool_param op "Holladay" false
  if r.1 < 0 then Except.error gs_error_undefined else
  let params := { params with holladay := r.2 }
  Except.ok { params with output_format := output_format_type.OUTPUT_TOS }

/-- The loop `for (i = 0; i < 2*width*height; i++) make_int(&refs[i+2], data[i])`,
entered at `i`. -/
def tos_loop (fm : htsc_dig_grid_t) (bound : Int) (i : Nat) (refs : List ref) : List ref :=
  if (i : Int) < bound then
    tos_loop fm bound (i + 1) (refs.set (i + 2) (ref.t_integer (data_at fm i)))
  else refs
termination_by (bound - (i : Int)).toNat
decreasing_by omega

/-- The `switch (output_type)` of `zgenordered` (lines 513-612): the value of `code`
on reaching `done` and the object left in `*op`. -/
def genordered_output (env : genordered_env) (output_type : output_format_type)
    (final_mask : htsc_dig_grid_t) (op : ref) : Int × ref :=
  match output_type with
  | output_format_type.OUTPUT_TOS =>
    let size := 2 + (2 * final_mask.width * final_mask.height)
    let code := env.array_code size
    if code < 0 then (code, op) else
    let refs := (List.range size.toNat).map env.fresh_ref
    let refs := refs.set 0 (ref.t_integer final_mask.width)
    let refs := refs.set 1 (ref.t_integer final_mask.height)
    (code, ref.t_array a_all (tos_loop final_mask (2 * final_mask.width * final_mask.height) 0 refs))
  | output_format_type.OUTPUT_RAW =>
    let width := final_mask.width
    let num_pix := width * final_mask.height
    match ialloc_string env (4 + num_pix) with
    | none => (gs_error_VMerror, op)
    | some str =>
      let str := store_byte str 0 (width >>> 8)
      let str := store_byte str 1 (Int.land width 0xff)
      let str := store_byte str 2 (final_mask.height >>> 8)
      let str := store_byte str 3 (Int.land final_mask.height 0xff)
      (0, ref.t_string (make_thresholds final_mask 4 str))
  | output_format_type.OUTPUT_PS =>
    let width := final_mask.width
    let num_pix := width * final_mask.height
    match ialloc_string env num_pix with
    | none => (gs_error_VMerror, op)
    | some str =>
      let thresh_ref := ref.t_string (make_thresholds final_mask 0 str)
      let code := env.dict_create_code
      if code < 0 then (code, op) else
      let op := ref.t_dictionary true []
      let r := idict_put_string env op "Thresholds" thresh_ref
      if r.1 < 0 then r else
      let r := idict_put_string env r.2 "Width" (ref.t_integer final_mask.width)
      if r.1 < 0 then r else
      let r := idict_put_string env r.2 "Height" (ref.t_integer final_mask.height)
      if r.1 < 0 then r else
      idict_put_string env r.2 "HalftoneType" (ref.t_integer 3)
  | _ => (gs_error_undefined, op)

/-- The outcome of an operator: its return code, the operand stack afterwards (top
first), and how many times the screen generator `htsc_gen_ordered` was run. -/
structure op_result where
  code : Int
  o_stack : List ref
  screens : Nat

/-- The operator `<dict> .genordered <string|array|dict>` (zht2.c, lines 428-619). -/
def zgenordered (env : genordered_env) (o_stack : List ref) : op_result :=
  match o_stack with
  | [] => ⟨gs_error_stackunderflow, o_stack, 0⟩
  | op :: rest =>
    match op with
    | ref.t_dictionary readable _ =>
      if readable = false then ⟨gs_error_invalidaccess, o_stack, 0⟩ else
      match genordered_output_type op with
      | Except.error e => ⟨e, o_stack, 0⟩
      | Except.ok output_type =>
        match genordered_screen_params env op with
        | Except.error e => ⟨e, o_stack, 0⟩
        | Except.ok params =>
          let g := env.htsc_gen_ordered params
          if g.1 < 0 then ⟨gs_error_undefined, o_stack, 1⟩ else
          let r := genordered_output env output_type g.2 op
          ⟨if r.1 < 0 then gs_error_undefined else 0, r.2 :: rest, 1⟩
    | _ => ⟨gs_error_typecheck, o_stack, 0⟩

/-! ## Closed forms used to state the results -/

/-- The level at whose window the cumulative area of `k` cells out of `num_pix` ends:
the integer form of the sweep's comparison. -/
def natural_level (num_pix k : Nat) : Nat := 255 * (256 * k + 1) / (256 * num_pix)

/-- The level the sweep gives to the cell at index `k` of the turn-on sequence: the
forced index `num_pix / 2 - 1` shares the level of its predecessor. -/
def level_of_index (num_pix k : Nat) : Nat :=
  natural_level num_pix (if k + 1 = num_pix / 2 then k - 1 else k)

/-- The threshold byte the sweep stores for the cell at index `k`. -/
def threshold_of_index (num_pix k : Nat) : Nat := 255 - level_of_index num_pix k

/-- The stores the sweep performs for the indices `a, a+1, ..., a+m-1`, in order. -/
def stores (fm : htsc_dig_grid_t) (thresh width : Int) (num_pix : Nat) (str : List Nat)
    (a m : Nat) : List Nat :=
  (List.range' a m).foldl
    (fun s k => store_byte s (thresh + thresh_index fm width k)
      (255 - (level_of_index num_pix k : Int))) str

/-- The turn-on sequence visits pairwise distinct, in-range cells: every pair
`(data[2k], data[2k+1])`, `k < width*height`, lies in the `width × height` grid, and
no two are equal. -/
def distinct_in_range_cells (fm : htsc_dig_grid_t) : Prop :=
  (∀ k, k < (fm.width * fm.height).toNat →
    0 ≤ data_at fm (2 * k) ∧ data_at fm (2 * k) < fm.width ∧
    0 ≤ data_at fm (2 * k + 1) ∧ data_at fm (2 * k + 1) < fm.height) ∧
  (∀ i, i < (fm.width * fm.height).toNat → ∀ j, j < i →
    ¬ (data_at fm (2 * i) = data_at fm (2 * j) ∧
       data_at fm (2 * i + 1) = data_at fm (2 * j + 1)))

instance (fm : htsc_dig_grid_t) : Decidable (distinct_in_range_cells fm) := by
  unfold distinct_in_range_cells
  infer_instance

/-- The `(x, y)` pairs of a list of coordinates. -/
def coordinate_pairs : List Int → List (Int × Int)
  | x :: y :: rest => (x, y) :: coordinate_pairs rest
  | _ => []

/-- The decoding of a turn-on array as the spec words it: the first two elements are
the width and the height, the rest are the `(x, y)` pairs of the sequence. -/
def decode_TOSArray (arr : ref) : Option (Int × Int × List (Int × Int)) :=
  match arr with
  | ref.t_array _ (ref.t_integer w :: ref.t_integer h :: rest) =>
    some (w, h, coordinate_pairs (rest.filterMap (fun r =>
      match r with
      | ref.t_integer v => some v
      | _ => none)))
  | _ => none

/-! ## Sample inputs -/

/-- A 2x2 mask whose turn-on sequence visits the cells in row-major order. -/
def mask_2x2 : htsc_dig_grid_t := ⟨2, 2, [0, 0, 1, 0, 0, 1, 1, 1]⟩

/-- A 3x1 mask whose turn-on sequence runs along the row. -/
def mask_3x1 : htsc_dig_grid_t := ⟨3, 1, [0, 0, 1, 0, 2, 0]⟩

/-- Sample defaults for the screen parameters. -/
def sample_params : htsc_param_t :=
  ⟨0, 75, 300, 300, false, 256, 1, false, 0, false, output_format_type.OUTPUT_PS⟩

/-- A sample environment: a 300 dpi device, a generator that answers every request
with `mask_2x2`, and allocations and dictionary stores that succeed. -/
def sample_env : genordered_env where
  HWResolution0 := 300
  HWResolution1 := 300
  default_params := sample_params
  CUSTOM := 9
  htsc_gen_ordered := fun _ => (0, mask_2x2)
  string_avail := fun _ => true
  fresh_byte := fun _ => 0
  array_code := fun _ => 0
  fresh_ref := fun _ => ref.t_null
  dict_create_code := 0
  dict_put_code := fun _ => 0

/-- The sample environment with an exhausted allocator: every `ialloc_string` and
`ialloc_ref_array` fails. -/
def sample_env_nomem : genordered_env :=
  { sample_env with string_avail := fun _ => false, array_code := fun _ => gs_error_VMerror }

/-- The parameters `sample_env` passes to the generator for a dictionary that sets
`Frequency` to 150 and nothing else but the output type. -/
def sample_screen_params : htsc_param_t :=
  ⟨0, 150, 300, 300, false, 256, 1, false, 0, false, output_format_type.OUTPUT_TOS⟩

/-- The entries of a parameter dictionary asking for the given output type at 150 lpi. -/
def sample_entries (out : String) : List (String × ref) :=
  [("OutputType", ref.t_name out.data), ("Frequency", ref.t_integer 150)]

/-- The entries of a parameter dictionary with `Frequency` 0. -/
def zero_frequency_entries : List (String × ref) :=
  [("Frequency", ref.t_integer 0)]

/-- The sample environment on a device of 600 by 1200 dpi. -/
def sample_env_600 : genordered_env :=
  { sample_env with HWResolution0 := 600, HWResolution1 := 1200 }

/-- The parameters `sample_env_600` passes to the generator for `sample_entries`. -/
def sample_screen_params_600 : htsc_param_t :=
  ⟨0, 150, 600, 1200, false, 256, 1, false, 0, false, output_format_type.OUTPUT_TOS⟩

/-! ## Object-type halftones (`.setobjtypeHT`) -/

/-- Modelled from the spec: the `gs_HT_objtype_t` enumeration (`gsht.h`, not among the
sources) names the object types a halftone can be set for. -/
inductive gs_HT_objtype_t where
  | HT_OBJTYPE_DEFAULT
  | HT_OBJTYPE_VECTOR
  | HT_OBJTYPE_IMAGE
  | HT_OBJTYPE_TEXT
deriving DecidableEq

/-- The function `ht_object_type_from_name` (zht2.c, lines 69-107) on the string of
the name: the return code and the value left in `*HTobjtype`. -/
def ht_object_type_from_name (sref : List Char) : Int × gs_HT_objtype_t :=
  if sref.length ≤ 1 then (gs_error_undefined, gs_HT_objtype_t.HT_OBJTYPE_DEFAULT)
  else if sref[0]? = some 'D' then
    if sref.length = 7 ∧ sref.take 7 = "Default".data then
      (0, gs_HT_objtype_t.HT_OBJTYPE_DEFAULT)
    else (gs_error_undefined, gs_HT_objtype_t.HT_OBJTYPE_DEFAULT)
  else if sref[0]? = some 'V' then
    if sref.length = 6 ∧ sref.take 6 = "Vector".data then
      (0, gs_HT_objtype_t.HT_OBJTYPE_VECTOR)
    else (gs_error_undefined, gs_HT_objtype_t.HT_OBJTYPE_DEFAULT)
  else if sref[0]? = some 'I' then
    if sref.length = 5 ∧ sref.take 5 = "Image".data then
      (0, gs_HT_objtype_t.HT_OBJTYPE_IMAGE)
    else (gs_error_undefined, gs_HT_objtype_t.HT_OBJTYPE_DEFAULT)
  else if sref[0]? = some 'T' then
    if sref.length = 4 ∧ sref.take 4 = "Text".data then
      (0, gs_HT_objtype_t.HT_OBJTYPE_TEXT)
    else (gs_error_undefined, gs_HT_objtype_t.HT_OBJTYPE_DEFAULT)
  else (gs_error_undefined, gs_HT_objtype_t.HT_OBJTYPE_DEFAULT)

/-- The outcome of `.setobjtypeHT`: its return code, the operand stack afterwards, and
the object type whose halftone was set from the default one, if any. -/
structure setobjtypeHT_result where
  code : Int
  o_stack : List ref
  objtype : Option gs_HT_objtype_t

/-- The operator `<name> .setobjtypeHT -` (zht2.c, lines 655-677).  `copy_code` is
the return code of `gx_gstate_dev_ht_copy_to_objtype`, which is not among the
sources. -/
def zsetobjtypeHT (copy_code : gs_HT_objtype_t → Int) (o_stack : List ref) :
    setobjtypeHT_result :=
  match o_stack with
  | [] => ⟨gs_error_stackunderflow, o_stack, none⟩
  | op :: rest =>
    match op with
    | ref.t_name sref =>
      let r := ht_object_type_from_name sref
      if r.1 < 0 then ⟨r.1, o_stack, none⟩ else
      let code := copy_code r.2
      if code < 0 then ⟨code, o_stack, none⟩ else
      ⟨0, rest, some r.2⟩
    | _ => ⟨gs_error_typecheck, o_stack, none⟩

/-! ## Type 1 font parameters (`zfont1.c`) -/

/-- The least value of a C `int` (`min_int` of `std.h`). -/
def min_int : Int := -2147483648
/-- The greatest value of a C `int` (`max_int` of `std.h`). -/
def max_int : Int := 2147483647
/-- The greatest value of a C `unsigned int` (`max_uint` of `std.h`). -/
def max_uint : Int := 4294967295

/-- Modelled from the spec: `dict_uint_param` (idparam.c) is not among the sources.
The result is the return code and the new `*pvalue`: code 1 and the default when the
key is absent, code 0 and the value for a non-negative integer within
`minval..maxval`, rangecheck outside the range, typecheck for any other object. -/
def dict_uint_param (pdict : ref) (kstr : String) (minval maxval defaultval : Int)
    (pvalue : Int) : Int × Int :=
  match dict_find_string pdict kstr with
  | none =>
    if defaultval < minval ∨ defaultval > maxval then (gs_error_undefined, pvalue)
    else (1, defaultval)
  | some (ref.t_integer ival) =>
    if ival < 0 ∨ ival > max_uint then (gs_error_rangecheck, pvalue)
    else if ival < minval ∨ ival > maxval then (gs_error_rangecheck, pvalue)
    else (0, ival)
  | some _ => (gs_error_typecheck, pvalue)

/-- The numbers of an array of numbers, or nothing when an element is not a number
(`process_float_array` of idparam.c). -/
def float_array_of_refs : List ref → Option (List ℚ)
  | [] => some []
  | ref.t_integer v :: rest => (float_array_of_refs rest).map (fun l => (v : ℚ) :: l)
  | ref.t_real v :: rest => (float_array_of_refs rest).map (fun l => v :: l)
  | _ :: _ => none

/-- Modelled from the spec: `dict_float_array_check_param` (idparam.c) is not among
the sources.  With no default vector: code 0 and `fvec` untouched when the key is
absent; typecheck when the value is not an array or holds a non-number; `over_error`
when the array is longer than `len`; otherwise the elements are stored at the front
of `fvec` and the code is their number (or `under_error`, when that is negative and
the array is shorter than `len`). -/
def dict_float_array_check_param (pdict : ref) (kstr : String) (len : Nat)
    (fvec : List ℚ) (under_error over_error : Int) : Int × List ℚ :=
  match dict_find_string pdict kstr with
  | none => (0, fvec)
  | some (ref.t_array _ refs) =>
    if refs.length > len then (over_error, fvec)
    else
      match float_array_of_refs refs with
      | none => (gs_error_typecheck, fvec)
      | some vals =>
        (if refs.length = len ∨ under_error ≥ 0 then (refs.length : Int) else under_error,
          vals ++ fvec.drop vals.length)
  | some _ => (gs_error_typecheck, fvec)

/-- The `gs_error_limitcheck` code of `gserrors.h`. -/
def gs_error_limitcheck : Int := -13

/-- Modelled from the spec: `dict_float_array_param` (idparam.c) is not among the
sources; it is `dict_float_array_check_param` with no error for a short array and
limitcheck for a long one. -/
def dict_float_array_param (pdict : ref) (kstr : String) (maxlen : Nat) (fvec : List ℚ) :
    Int × List ℚ :=
  dict_float_array_check_param pdict kstr maxlen fvec 0 gs_error_limitcheck

/-- A table of floats with its count (`float_array` members of `gs_type1_data`). -/
structure float_table where
  count : Int
  values : List ℚ

/-- Modelled from the spec: the `gs_type1_data` of `gxfont1.h` is not among the
sources.  These are the members `charstring_font_params` sets. -/
structure gs_type1_data where
  lenIV : Int
  subroutineNumberBias : Int
  BlueFuzz : Int
  BlueScale : ℚ
  BlueShift : ℚ
  BlueValues : float_table
  ExpansionFactor : ℚ
  FamilyBlues : float_table
  FamilyOtherBlues : float_table
  ForceBold : Bool
  LanguageGroup : Int
  OtherBlues : float_table
  RndStemUp : Bool
  StdHW : float_table
  StdVW : float_table
  StemSnapH : float_table
  StemSnapV : float_table
  WeightVector : float_table
  hash_subrs : List Nat

/-- What `charstring_font_params` takes from its surroundings: the table sizes of
`gxfont1.h`, and the outcome of `charstring_check_mm_params`, a check of the Blend
dictionaries of a multiple-master font that reads the font dictionary and nothing
else. -/
structure font_env where
  max_BlueValues : Nat
  max_FamilyBlues : Nat
  max_FamilyOtherBlues : Nat
  max_OtherBlues : Nat
  max_StemSnap : Nat
  max_WeightVector : Nat
  /-- The return code of `charstring_check_mm_params` for the font dictionary and the
  number of designs. -/
  check_mm_params : ref → Int → Int

/-- The loop of `find_zone_height` (zfont1.c, lines 44-53), entered at `i`: the new
`*pmax_height`. -/
def find_zone_height_loop (max_height : ℚ) (count : Int) (values : List ℚ) (i : Nat) : ℚ :=
  if (i : Int) < count then
    let zone_height := values.getD (i + 1) 0 - values.getD i 0
    find_zone_height_loop (if zone_height > max_height then zone_height else max_height)
      count values (i + 2)
  else max_height
termination_by (count - (i : Int)).toNat
decreasing_by omega

/-- The function `find_zone_height`: the new `*pmax_height`. -/
def find_zone_height (max_height : ℚ) (count : Int) (values : List ℚ) : ℚ :=
  find_zone_height_loop max_height count values 0

/-- The lookups of `charstring_font_params` at lines 439-449 (lenIV,
subroutineNumberBias, BlueFuzz, BlueScale, BlueShift): the return code and the font
data. -/
def charstring_font_lookups_1 (pprivate : ref) (pdata1 : gs_type1_data) :
    Int × gs_type1_data :=
  let r := dict_int_param pprivate "lenIV" (-1) 255 pdata1.lenIV pdata1.lenIV
  if r.1 < 0 then (r.1, pdata1) else
  let pdata1 := { pdata1 with lenIV := r.2 }
  let r := dict_uint_param pprivate "subroutineNumberBias" 0 max_uint
    pdata1.subroutineNumberBias pdata1.subroutineNumberBias
  if r.1 < 0 then (r.1, pdata1) else
  let pdata1 := { pdata1 with subroutineNumberBias := r.2 }
  let r := dict_int_param pprivate "BlueFuzz" 0 1999 1 pdata1.BlueFuzz
  if r.1 < 0 then (r.1, pdata1) else
  let pdata1 := { pdata1 with BlueFuzz := r.2 }
  let r := dict_float_param pprivate "BlueScale" (39625 / 1000000)
  if r.1 < 0 then (r.1, pdata1) else
  let pdata1 := { pdata1 with BlueScale := r.2 }
  let r := dict_float_param pprivate "BlueShift" 7
  if r.1 < 0 then (r.1, pdata1) else
  (r.1, { pdata1 with BlueShift := r.2 })

/-- The lookups of `charstring_font_params` at lines 450-468 (BlueValues,
ExpansionFactor, FamilyBlues, FamilyOtherBlues). -/
def charstring_font_lookups_2 (env : font_env) (pprivate : ref) (pdata1 : gs_type1_data) :
    Int × gs_type1_data :=
  let r := dict_float_array_param pprivate "BlueValues" (env.max_BlueValues * 2)
    pdata1.BlueValues.values
  let pdata1 := { pdata1 with BlueValues := ⟨r.1, r.2⟩ }
  if r.1 < 0 then (r.1, pdata1) else
  if Int.tmod pdata1.BlueValues.count 2 ≠ 0 then (gs_error_rangecheck, pdata1) else
  let r := dict_float_param pprivate "ExpansionFactor" (6 / 100)
  if r.1 < 0 then (r.1, pdata1) else
  let pdata1 := { pdata1 with ExpansionFactor := r.2 }
  let r := dict_float_array_param pprivate "FamilyBlues" (env.max_FamilyBlues * 2)
    pdata1.FamilyBlues.values
  let pdata1 := { pdata1 with FamilyBlues := ⟨r.1, r.2⟩ }
  if r.1 < 0 then (r.1, pdata1) else
  if Int.tmod pdata1.FamilyBlues.count 2 ≠ 0 then (gs_error_rangecheck, pdata1) else
  let r := dict_float_array_param pprivate "FamilyOtherBlues" (env.max_FamilyOtherBlues * 2)
    pdata1.FamilyOtherBlues.values
  let pdata1 := { pdata1 with FamilyOtherBlues := ⟨r.1, r.2⟩ }
  if r.1 < 0 then (r.1, pdata1) else
  if Int.tmod pdata1.FamilyOtherBlues.count 2 ≠ 0 then (gs_error_rangecheck, pdata1) else
  (r.1, pdata1)

/-- The lookups of `charstring_font_params` at lines 470-485 (ForceBold,
LanguageGroup, OtherBlues, RndStemUp). -/
def charstring_font_lookups_3 (env : font_env) (pprivate : ref) (pdata1 : gs_type1_data) :
    Int × gs_type1_data :=
  let r := dict_bool_param pprivate "ForceBold" false
  if r.1 < 0 then (r.1, pdata1) else
  let pdata1 := { pdata1 with ForceBold := r.2 }
  let r := dict_int_param pprivate "LanguageGroup" min_int max_int 0 pdata1.LanguageGroup
  if r.1 < 0 then (r.1, pdata1) else
  let pdata1 := { pdata1 with LanguageGroup := r.2 }
  let r := dict_float_array_param pprivate "OtherBlues" (env.max_OtherBlues * 2)
    pdata1.OtherBlues.values
  let pdata1 := { pdata1 with OtherBlues := ⟨r.1, r.2⟩ }
  if r.1 < 0 then (r.1, pdata1) else
  if Int.tmod pdata1.OtherBlues.count 2 ≠ 0 then (gs_error_rangecheck, pdata1) else
  let r := dict_bool_param pprivate "RndStemUp" true
  if r.1 < 0 then (r.1, pdata1) else
  (r.1, { pdata1 with RndStemUp := r.2 })

/-- The lookups of `charstring_font_params` at lines 486-507 (StdHW, StdVW,
StemSnapH, StemSnapV, WeightVector and the multiple-master check). -/
def charstring_font_lookups_4 (env : font_env) (op : ref) (pprivate : ref)
    (pdata1 : gs_type1_data) : Int × gs_type1_data :=
  let r := dict_float_array_check_param pprivate "StdHW" 1 pdata1.StdHW.values 0
    gs_error_rangecheck
  let pdata1 := { pdata1 with StdHW := ⟨r.1, r.2⟩ }
  if r.1 < 0 then (r.1, pdata1) else
  let r := dict_float_array_check_param pprivate "StdVW" 1 pdata1.StdVW.values 0
    gs_error_rangecheck
  let pdata1 := { pdata1 with StdVW := ⟨r.1, r.2⟩ }
  if r.1 < 0 then (r.1, pdata1) else
  let r := dict_float_array_param pprivate "StemSnapH" env.max_StemSnap
    pdata1.StemSnapH.values
  let pdata1 := { pdata1 with StemSnapH := ⟨r.1, r.2⟩ }
  if r.1 < 0 then (r.1, pdata1) else
  let r := dict_float_array_param pprivate "StemSnapV" env.max_StemSnap
    pdata1.StemSnapV.values
  let pdata1 := { pdata1 with StemSnapV := ⟨r.1, r.2⟩ }
  if r.1 < 0 then (r.1, pdata1) else
  let r := dict_float_array_param op "WeightVector" env.max_WeightVector
    pdata1.WeightVector.values
  let pdata1 := { pdata1 with WeightVector := ⟨r.1, r.2⟩ }
  if r.1 < 0 then (r.1, pdata1) else
  if pdata1.WeightVector.count > 0 ∧ env.check_mm_params op pdata1.WeightVector.count < 0 then
    (env.check_mm_params op pdata1.WeightVector.count, pdata1)
  else (0, pdata1)

/-- The lookups of `charstring_font_params` (zfont1.c, lines 435-507), in the order of
the source: the return code and the font data on reaching line 508, or the error
code returned before. -/
def charstring_font_lookups (env : font_env) (op : ref) (pprivate : ref)
    (pdata1 : gs_type1_data) : Int × gs_type1_data :=
  let r := charstring_font_lookups_1 pprivate pdata1
  if r.1 < 0 then r else
  let r := charstring_font_lookups_2 env pprivate r.2
  if r.1 < 0 then r else
  let r := charstring_font_lookups_3 env pprivate r.2
  if r.1 < 0 then r else
  charstring_font_lookups_4 env op pprivate r.2

/-- The value of `max_zone_height` at line 522 of `charstring_font_params`: 1.0,
raised by `find_zone_height` over BlueValues, OtherBlues, FamilyBlues and
FamilyOtherBlues in turn. -/
def font_max_zone_height (pdata1 : gs_type1_data) : ℚ :=
  let max_zone_height : ℚ := 1
  let max_zone_height :=
    find_zone_height max_zone_height pdata1.BlueValues.count pdata1.BlueValues.values
  let max_zone_height :=
    find_zone_height max_zone_height pdata1.OtherBlues.count pdata1.OtherBlues.values
  let max_zone_height :=
    find_zone_height max_zone_height pdata1.FamilyBlues.count pdata1.FamilyBlues.values
  find_zone_height max_zone_height pdata1.FamilyOtherBlues.count
    pdata1.FamilyOtherBlues.values

/-- The adjustments at the end of `charstring_font_params` (zfont1.c, lines 508-541):
BlueScale is forced back when BlueScale times the maximum zone height exceeds 1,
a LanguageGroup other than 0 and 1 becomes 0, and the subroutine hash is cleared. -/
def charstring_font_adjust (pdata1 : gs_type1_data) : gs_type1_data :=
  let max_zone_height := font_max_zone_height pdata1
  let pdata1 :=
    if pdata1.BlueScale * max_zone_height > 1 then
      { pdata1 with BlueScale := 1 / max_zone_height }
    else pdata1
  let pdata1 :=
    if pdata1.LanguageGroup > 1 ∨ pdata1.LanguageGroup < 0 then
      { pdata1 with LanguageGroup := 0 }
    else pdata1
  { pdata1 with hash_subrs := List.replicate 16 0 }

/-- The function `charstring_font_params` (zfont1.c, lines 430-542) on the font
dictionary `op` and its Private dictionary: the return code and the font data. -/
def charstring_font_params (env : font_env) (op : ref) (pprivate : ref)
    (pdata1 : gs_type1_data) : Int × gs_type1_data :=
  let r := charstring_font_lookups env op pprivate pdata1
  if r.1 < 0 then r else (0, charstring_font_adjust r.2)

/-- A sample font environment with the table sizes of a Type 1 font and a
multiple-master check that succeeds. -/
def sample_font_env : font_env where
  max_BlueValues := 7
  max_FamilyBlues := 7
  max_FamilyOtherBlues := 5
  max_OtherBlues := 5
  max_StemSnap := 12
  max_WeightVector := 16
  check_mm_params := fun _ _ => 0

/-- A cleared `gs_type1_data`. -/
def cleared_type1_data : gs_type1_data :=
  ⟨0, 0, 0, 0, 0, ⟨0, []⟩, 0, ⟨0, []⟩, ⟨0, []⟩, false, 0, ⟨0, []⟩, false,
    ⟨0, []⟩, ⟨0, []⟩, ⟨0, []⟩, ⟨0, []⟩, ⟨0, []⟩, []⟩

/-- A Private dictionary with LanguageGroup 7. -/
def private_LanguageGroup_7 : ref :=
  ref.t_dictionary true [("LanguageGroup", ref.t_integer 7)]

/-- A Private dictionary with BlueScale 2 and one alignment zone of height 10. -/
def private_BlueScale_2 : ref :=
  ref.t_dictionary true
    [("BlueScale", ref.t_integer 2),
      ("BlueValues", ref.t_array a_all [ref.t_integer 0, ref.t_integer 10])]

/-- A font dictionary without entries. -/
def empty_font_dict : ref := ref.t_dictionary true []

/-! ## Functions (`zfunc.c`) -/

/-- The maximum depth of nesting of subsidiary functions (zfunc.c, line 32). -/
def MAX_SUB_FUNCTION_DEPTH : Int := 3

/-- Modelled from the spec: the `gs_function_params_t` of `gsfunc.h` is not among the
sources.  These are the members `fn_build_sub_function` sets; a null array is
`none`. -/
structure gs_function_params_t where
  m : Int
  Domain : Option (List ℚ)
  n : Int
  Range : Option (List ℚ)

/-- What the function builders take from their surroundings: the outcome of each
allocation, and the table of the function types with their build procedures
(`build_function_type_table`, not among the sources).  A build procedure gets the
dictionary, the common parameters and the depth, and gives its return code and the
address of the function it built (0 for none). -/
structure func_env where
  /-- Whether `gs_alloc_byte_array` of the given number of floats succeeds. -/
  float_array_avail : Nat → Bool
  /-- The floats found in a freshly allocated array. -/
  fresh_float : Nat → ℚ
  /-- The entries of `build_function_type_table`: a type and its procedure. -/
  build_function_type_table : List (Int × (ref → gs_function_params_t → Int → Int × Nat))
  /-- The return code of `ialloc_ref_array` for the closure of two elements. -/
  closure_code : Int

/-- The function `fn_build_float_array` (zfunc.c, lines 258-287): the return code and
the array left in `*pparray` (`none` for a null pointer). -/
def fn_build_float_array (env : func_env) (op : ref) (kstr : String) (required even : Bool) :
    Int × Option (List ℚ) :=
  match dict_find_string op kstr with
  | none => (if required then gs_error_rangecheck else 0, none)
  | some par =>
    match par with
    | ref.t_array _ refs =>
      let size := refs.length
      if env.float_array_avail size = false then (gs_error_VMerror, none) else
      let ptr := (List.range size).map env.fresh_float
      let r := dict_float_array_check_param op kstr size ptr 0 gs_error_rangecheck
      if r.1 < 0 ∨ (even = true ∧ Int.land r.1 1 ≠ 0) then
        (if r.1 < 0 then r.1 else gs_error_rangecheck, none)
      else (r.1, some r.2)
    | _ => (gs_error_typecheck, none)

/-- The loop of lines 212-218, entered at `j` with the return code `code`: the first
pair of `Domain` whose lower end exceeds the upper end makes the code rangecheck. -/
def domain_order_loop (Domain : List ℚ) (m : Int) (j : Nat) (code : Int) : Int :=
  if (j : Int) < m * 2 then
    if Domain.getD j 0 > Domain.getD (j + 1) 0 then gs_error_rangecheck
    else domain_order_loop Domain m (j + 2) code
  else code
termination_by (m * 2 - (j : Int)).toNat
decreasing_by omega

/-- The loop of lines 226-232, entered at `j` with the return code `code`. -/
def shading_domain_loop (Domain shading_domain : List ℚ) (num_inputs : Int) (j : Nat)
    (code : Int) : Int :=
  if (j : Int) < 2 * num_inputs ∧ code ≥ 0 then
    shading_domain_loop Domain shading_domain num_inputs (j + 2)
      (if Domain.getD j 0 > shading_domain.getD j 0 ∨
          Domain.getD (j + 1) 0 < shading_domain.getD (j + 1) 0
        then gs_error_rangecheck else code)
  else code
termination_by (2 * num_inputs - (j : Int)).toNat
decreasing_by omega

/-- The check of lines 219-232 that the function's domain is a superset of the
shading's: the value of `code` at line 233. -/
def shading_domain_check (Domain : List ℚ) (m : Int) (shading_domain : Option (List ℚ))
    (num_inputs : Int) (code : Int) : Int :=
  match shading_domain with
  | none => code
  | some sd =>
    shading_domain_loop Domain sd num_inputs 0
      (if num_inputs ≠ m then gs_error_rangecheck else code)

/-- The part of `fn_build_sub_function` after the function type is found in the
table (zfunc.c, lines 203-249), for the table entry's procedure `proc`: the return
code and the function built. -/
def fn_build_common (env : func_env) (op : ref)
    (proc : ref → gs_function_params_t → Int → Int × Nat) (depth : Int)
    (shading_domain : Option (List ℚ)) (num_inputs : Int) : Int × Nat :=
  let d := fn_build_float_array env op "Domain" true true
  if d.1 < 0 then (d.1, 0) else
  let m := d.1 >>> 1
  let Domain := d.2.getD []
  let code := domain_order_loop Domain m 0 d.1
  if code < 0 then (code, 0) else
  let code := shading_domain_check Domain m shading_domain num_inputs code
  if code < 0 then (code, 0) else
  let r := fn_build_float_array env op "Range" false true
  if r.1 < 0 then (r.1, 0) else
  proc op ⟨m, d.2, r.1 >>> 1, r.2⟩ (depth + 1)

/-- The part of `fn_build_sub_function` after the depth check (zfunc.c, lines
194-249). -/
def fn_build_checked (env : func_env) (op : ref) (depth : Int)
    (shading_domain : Option (List ℚ)) (num_inputs : Int) : Int × Nat :=
  match op with
  | ref.t_dictionary _ _ =>
    let t := dict_int_param op "FunctionType" 0 max_int (-1) 0
    if t.1 < 0 then (t.1, 0) else
    match env.build_function_type_table.find? (fun e => e.1 = t.2) with
    | none => (gs_error_rangecheck, 0)
    | some e => fn_build_common env op e.2 depth shading_domain num_inputs
  | _ => (gs_error_typecheck, 0)

/-- The function `fn_build_sub_function` (zfunc.c, lines 184-250): the return code and
the address left in `*ppfn` (0 when none is stored). -/
def fn_build_sub_function (env : func_env) (op : ref) (depth : Int)
    (shading_domain : Option (List ℚ)) (num_inputs : Int) : Int × Nat :=
  if depth > MAX_SUB_FUNCTION_DEPTH then (gs_error_limitcheck, 0)
  else fn_build_checked env op depth shading_domain num_inputs

/-- The function `fn_build_function` (zfunc.c, lines 178-183). -/
def fn_build_function (env : func_env) (op : ref) (shading_domain : Option (List ℚ))
    (num_inputs : Int) : Int × Nat :=
  fn_build_sub_function env op 0 shading_domain num_inputs

/-- The macro `r_has_masked_attrs(rp, a1, m)` of `iref.h`, on the attributes. -/
def r_has_masked_attrs (attrs a1 m : ref_attrs) : Prop := attrs_and attrs m = a1

instance (attrs a1 m : ref_attrs) : Decidable (r_has_masked_attrs attrs a1 m) := by
  unfold r_has_masked_attrs
  infer_instance

/-- The function `make_function_proc` (zfunc.c, lines 36-51): the return code and the
object left in `*op`.  The macro `make_oper_new(pref, opidx, proc)` of `store.h`
(not among the sources) makes an operator with the attributes `a_executable`; its
second argument, 0 here, is the operator index. -/
def make_function_proc (env : func_env) (op : ref) (pfn : Nat) : Int × ref :=
  let code := env.closure_code
  if code < 0 then (code, op) else
  (0, ref.t_array (attrs_or a_executable a_execute)
    [ref.t_struct (attrs_or a_executable a_execute) pfn,
      ref.t_operator a_executable op_proc.zexecfunction])

/-- The operator `<dict> .buildfunction <function_proc>` (zfunc.c, lines 53-67): the
return code and the operand stack afterwards.  The interpreter runs the operator
with at least one operand. -/
def zbuildfunction (env : func_env) (o_stack : List ref) : Int × List ref :=
  match o_stack with
  | [] => (gs_error_stackunderflow, o_stack)
  | op :: rest =>
    let b := fn_build_function env op none 0
    if b.1 < 0 then (b.1, o_stack) else
    let c := make_function_proc env op b.2
    (0, c.2 :: rest)

/-- The function `ref_function` (zfunc.c, lines 339-354): the address of the function,
or 0. -/
def ref_function (op : ref) : Nat :=
  match op with
  | ref.t_array attrs [ref.t_struct sattrs pstruct, ref.t_operator oattrs opproc] =>
    if r_has_masked_attrs attrs (attrs_or a_executable a_execute) (attrs_or a_executable a_all) ∧
        attrs_and oattrs a_executable = a_executable ∧
        opproc = op_proc.zexecfunction ∧
        r_has_masked_attrs sattrs (attrs_or a_executable a_execute)
          (attrs_or a_executable a_all)
    then pstruct else 0
  | ref.t_array attrs [ref.t_astruct sattrs pstruct, ref.t_operator oattrs opproc] =>
    if r_has_masked_attrs attrs (attrs_or a_executable a_execute) (attrs_or a_executable a_all) ∧
        attrs_and oattrs a_executable = a_executable ∧
        opproc = op_proc.zexecfunction ∧
        r_has_masked_attrs sattrs (attrs_or a_executable a_execute)
          (attrs_or a_executable a_all)
    then pstruct else 0
  | _ => 0

/-- The operator `<proc> .isencapfunction <bool>` (zfunc.c, lines 163-173): the return
code and the operand stack afterwards.  The failure of `check_proc` is invalidaccess
for an executable array that may not be executed and typecheck otherwise
(`check_proc_failed`, not among the sources). -/
def zisencapfunction (o_stack : List ref) : Int × List ref :=
  match o_stack with
  | [] => (gs_error_stackunderflow, o_stack)
  | op :: rest =>
    match op with
    | ref.t_array attrs _ =>
      if attrs_and attrs (attrs_or a_execute a_executable) = attrs_or a_execute a_executable then
        (0, ref.t_boolean (decide (ref_function op ≠ 0)) :: rest)
      else if attrs.executable = true then (gs_error_invalidaccess, o_stack)
      else (gs_error_typecheck, o_stack)
    | _ => (gs_error_typecheck, o_stack)

/-- The claim's description of an encapsulated function: an executable, execute-only
array of two elements whose second element is the `zexecfunction` operator and whose
first element is an executable, execute-only structure. -/
def is_function_proc (op : ref) : Prop :=
  ∃ attrs first oattrs,
    op = ref.t_array attrs [first, ref.t_operator oattrs op_proc.zexecfunction] ∧
    attrs.executable = true ∧ attrs.execute = true ∧ attrs.read = false ∧
    attrs.write = false ∧
    ∃ sattrs pstruct,
      (first = ref.t_struct sattrs pstruct ∨ first = ref.t_astruct sattrs pstruct) ∧
      sattrs.executable = true ∧ sattrs.execute = true ∧ sattrs.read = false ∧
      sattrs.write = false

/-- The claim's condition on a function's domain and a shading's domain: the number
of inputs is `m`, and each of the function's intervals contains the shading's. -/
def domain_is_superset (Domain shading_domain : List ℚ) (m num_inputs : Int) : Prop :=
  num_inputs = m ∧
  ∀ j : Nat, (j : Int) < num_inputs →
    Domain.getD (2 * j) 0 ≤ shading_domain.getD (2 * j) 0 ∧
    Domain.getD (2 * j + 1) 0 ≥ shading_domain.getD (2 * j + 1) 0

/-- A sample environment for the function builders: allocations succeed and the
table knows function type 2, whose procedure builds the function at address 42. -/
def sample_func_env : func_env where
  float_array_avail := fun _ => true
  fresh_float := fun _ => 0
  build_function_type_table := [(2, fun _ _ _ => (0, 42))]
  closure_code := 0

/-- The sample environment when the allocation of the closure fails. -/
def sample_func_env_nomem : func_env :=
  { sample_func_env with closure_code := gs_error_VMerror }

/-- A function dictionary of type 2 with the domain 0..1. -/
def sample_function_dict : ref :=
  ref.t_dictionary true
    [("FunctionType", ref.t_integer 2),
      ("Domain", ref.t_array a_all [ref.t_integer 0, ref.t_integer 1])]

/-! ## The turn-on sequence generator (spec section 4.3) -/

/-- Modelled from the spec: the screen generator `htsc_gen_ordered` of `gen_ordered.c`
is not among the sources.  These are the cells of a `width × height` tile in the fixed
scan order of the spec (row by row, and by column within a row). -/
def grid_cells (width height : Nat) : List (Int × Int) :=
  (List.product (List.range height) (List.range width)).map
    (fun p => ((p.2 : Int), (p.1 : Int)))

/-- Modelled from the spec: the turn-on sequence generator of `gen_ordered.c` is not
among the sources.  The cells are taken in increasing distance from the seed under the
metric of the dot shape, with ties broken by the scan order: the grid cells in scan
order, stably sorted by the metric. -/
def turn_on_sequence (metric : Int × Int → ℚ) (width height : Nat) : List (Int × Int) :=
  List.insertionSort (fun a b => metric a ≤ metric b) (grid_cells width height)

/-- The buffer of `2 * width * height` integers holding the `(x, y)` pairs of a
sequence. -/
def sequence_data : List (Int × Int) → List Int
  | [] => []
  | c :: rest => c.1 :: c.2 :: sequence_data rest

/-- Modelled from the spec: `htsc_gen_ordered` of `gen_ordered.c` is not among the
sources.  The solver and the mask builder (`cell_size`) either reject the parameters
or give the dimensions of the tile; the generator then stores the turn-on sequence of
the tile, for the metric of the requested dot shape, in the final mask. -/
def htsc_gen_ordered_model (cell_size : htsc_param_t → Option (Nat × Nat))
    (metric : htsc_param_t → Int × Int → ℚ) (params : htsc_param_t) :
    Int × htsc_dig_grid_t :=
  match cell_size params with
  | none => (-1, ⟨0, 0, []⟩)
  | some s =>
    (0, ⟨(s.1 : Int), (s.2 : Int),
      sequence_data (turn_on_sequence (metric params) s.1 s.2)⟩)

/-- A round dot on a `width × height` tile: the squared distance of a cell from the
centre of the tile, in half-cell units. -/
def round_dot_metric (width height : Nat) (c : Int × Int) : ℚ :=
  ((2 * c.1 - ((width : Int) - 1)) ^ 2 + (2 * c.2 - ((height : Int) - 1)) ^ 2 : Int)

/-! ## The ASCII85Decode state (`base/sa85d.h`) -/

/-- The fields that the macro `stream_state_common` puts at the head of every stream
state.  The macro is defined in `scommon.h`, which is not among the sources: a template
pointer, the allocator, the error reporting procedure, `min_left` (the bytes required
for lookahead) and the error string.  Pointers are addresses. -/
structure stream_state_common where
  templat : Nat
  memory : Nat
  report_error : Nat
  min_left : Int
  error_string : List Nat
deriving DecidableEq

/-- The structure `stream_A85D_state` (sa85d.h, lines 26-32). -/
structure stream_A85D_state extends stream_state_common where
  odd : Int
  word : Nat
  pdf_rules : Bool
  require_eod : Bool
deriving DecidableEq

/-- The macro `s_A85D_init_inline(ss)` (sa85d.h, lines 39-53): the four assignments, in
the order of the source, on the state that `ss` points to. -/
def s_A85D_init_inline (ss : stream_A85D_state) : stream_A85D_state :=
  let ss₁ : stream_A85D_state := { ss with min_left := 1 }
  let ss₂ : stream_A85D_state := { ss₁ with word := 0 }
  let ss₃ : stream_A85D_state := { ss₂ with odd := 0 }
  { ss₃ with require_eod := false }

/-! ## The level sweep in closed form -/

theorem natural_level_mono (n : Nat) {j k : Nat} (h : j ≤ k) :
    natural_level n j ≤ natural_level n k := by
  unfold natural_level
  apply Nat.div_le_div_right
  omega

theorem natural_level_le (n k : Nat) (hk : k < n) : natural_level n k ≤ 254 := by
  unfold natural_level
  have hn : 0 < 256 * n := by omega
  have : 255 * (256 * k + 1) / (256 * n) < 255 := by
    rw [Nat.div_lt_iff_lt_mul hn]
    nlinarith
  omega

theorem natural_level_le_iff (n k l : Nat) (hn : 0 < n) :
    natural_level n k ≤ l ↔ 255 * (256 * k + 1) < 256 * n * (l + 1) := by
  unfold natural_level
  have h : 0 < 256 * n := by omega
  rw [← Nat.lt_succ_iff, Nat.div_lt_iff_lt_mul h]
  constructor <;> intro h' <;> nlinarith

/-- The comparison `cur_value < end_value - delta_value * (1./256.)` of the sweep, in
exact arithmetic, at `cur_value = k * delta_value`. -/
theorem below_iff (n k l : Nat) (hn : 0 < n) (hl : l < 256) :
    ((k : ℚ) * (1 / (n : ℚ)) <
        (if (((1 + l : Nat) : ℚ) / 255) > 255 then (255 : ℚ) else (((1 + l : Nat) : ℚ) / 255))
          - (1 / (n : ℚ)) * (1 / 256))
      ↔ natural_level n k ≤ l := by
  have hnq : (0 : ℚ) < n := by exact_mod_cast hn
  have hlq : ((1 + l : Nat) : ℚ) / 255 ≤ 255 := by
    rw [div_le_iff₀ (by norm_num)]
    have : ((1 + l : Nat) : ℚ) ≤ 256 := by exact_mod_cast (by omega : 1 + l ≤ 256)
    linarith
  rw [if_neg (not_lt.mpr hlq), natural_level_le_iff n k l hn]
  have key : (k : ℚ) * (1 / (n : ℚ)) < ((1 + l : Nat) : ℚ) / 255 - (1 / (n : ℚ)) * (1 / 256)
      ↔ (255 : ℚ) * (256 * k + 1) < 256 * n * (l + 1) := by
    have e : ((1 + l : Nat) : ℚ) / 255 - (1 / (n : ℚ)) * (1 / 256) - (k : ℚ) * (1 / (n : ℚ))
        = (256 * n * (l + 1) - 255 * (256 * k + 1)) / (255 * 256 * n) := by
      push_cast
      field_simp
      ring
    rw [← sub_pos, e, div_pos_iff_of_pos_right (by positivity), sub_pos]
  rw [key]
  exact_mod_cast Iff.rfl


theorem sweep_while_eq (fm : htsc_dig_grid_t) (thresh width num_pix : Int)
    (delta_value end_value : ℚ) (level k : Nat) (v : ℚ) (str : List Nat) :
    sweep_while fm thresh width num_pix delta_value end_value level ⟨k, v, str⟩ =
      if v < end_value - delta_value * (1 / 256) ∨ (k : Int) + 1 = Int.tdiv num_pix 2 then
        if ((k + 1 : Nat) : Int) ≥ num_pix then
          ⟨k + 1, v, store_byte str (thresh + thresh_index fm width k) (255 - (level : Int))⟩
        else
          sweep_while fm thresh width num_pix delta_value end_value level
            ⟨k + 1, v + delta_value,
              store_byte str (thresh + thresh_index fm width k) (255 - (level : Int))⟩
      else ⟨k, v, str⟩ := by
  rw [sweep_while]

theorem stores_zero (fm : htsc_dig_grid_t) (thresh width : Int) (n : Nat) (str : List Nat)
    (a : Nat) : stores fm thresh width n str a 0 = str := by
  simp [stores]

theorem stores_succ (fm : htsc_dig_grid_t) (thresh width : Int) (n : Nat) (str : List Nat)
    (a m : Nat) :
    stores fm thresh width n str a (m + 1) =
      stores fm thresh width n
        (store_byte str (thresh + thresh_index fm width a)
          (255 - (level_of_index n a : Int))) (a + 1) m := by
  simp [stores, List.range'_succ]

theorem stores_append (fm : htsc_dig_grid_t) (thresh width : Int) (n : Nat) (str : List Nat)
    (a m m' : Nat) :
    stores fm thresh width n (stores fm thresh width n str a m) (a + m) m' =
      stores fm thresh width n str a (m + m') := by
  unfold stores
  rw [← List.foldl_append]
  congr 1
  have := List.range'_append a m m' 1
  simp [Nat.add_comm]

theorem tdiv_two (n : Nat) : Int.tdiv (n : Int) 2 = ((n / 2 : Nat) : Int) := by
  rw [Int.tdiv_eq_ediv (by omega) (by omega)]; omega

/-- One run of the `while` loop: it stores the thresholds of the indices `k .. k'-1`
and stops either at the end of the sequence or at an index `k'` whose window ends at
a later level. -/
theorem sweep_while_spec (fm : htsc_dig_grid_t) (thresh width : Int) (n : Nat) (hn : 0 < n)
    (l : Nat) (hl : l < 256) :
    ∀ (m k : Nat) (str : List Nat), n - k = m → k < n → l ≤ natural_level n k →
      (k + 1 = n / 2 → l = level_of_index n k) →
      ∃ k', k ≤ k' ∧ k' ≤ n ∧
        (sweep_while fm thresh width (n : Int) (1 / (n : ℚ))
          (if (((1 + l : Nat) : ℚ) / 255) > 255 then (255 : ℚ) else (((1 + l : Nat) : ℚ) / 255))
          l ⟨k, (k : ℚ) * (1 / (n : ℚ)), str⟩).cur_pix = k' ∧
        (sweep_while fm thresh width (n : Int) (1 / (n : ℚ))
          (if (((1 + l : Nat) : ℚ) / 255) > 255 then (255 : ℚ) else (((1 + l : Nat) : ℚ) / 255))
          l ⟨k, (k : ℚ) * (1 / (n : ℚ)), str⟩).str = stores fm thresh width n str k (k' - k) ∧
        (k' < n →
          (sweep_while fm thresh width (n : Int) (1 / (n : ℚ))
            (if (((1 + l : Nat) : ℚ) / 255) > 255 then (255 : ℚ) else (((1 + l : Nat) : ℚ) / 255))
            l ⟨k, (k : ℚ) * (1 / (n : ℚ)), str⟩).cur_value = (k' : ℚ) * (1 / (n : ℚ)) ∧
          l < natural_level n k' ∧ k' + 1 ≠ n / 2) := by
  intro m
  induction m with
  | zero => intro k str h1 h2; omega
  | succ m ih =>
    intro k str hm hk hI hJ
    rw [sweep_while_eq]
    simp only [below_iff n k l hn hl, tdiv_two]
    by_cases hc : natural_level n k ≤ l ∨ (k : Int) + 1 = ((n / 2 : Nat) : Int)
    · rw [if_pos hc]
      have hlev : l = level_of_index n k := by
        by_cases hf : k + 1 = n / 2
        · exact hJ hf
        · have : natural_level n k ≤ l := by
            rcases hc with h | h
            · exact h
            · exact absurd (by exact_mod_cast h) hf
          unfold level_of_index
          rw [if_neg hf]
          omega
      by_cases hend : ((k + 1 : Nat) : Int) ≥ (n : Int)
      · rw [if_pos hend]
        have hkn : k + 1 = n := by
          have : n ≤ k + 1 := by exact_mod_cast hend
          omega
        refine ⟨k + 1, by omega, by omega, rfl, ?_, fun h => by omega⟩
        have : k + 1 - k = 0 + 1 := by omega
        rw [this, stores_succ, stores_zero, hlev]
      · rw [if_neg hend]
        have hkn : k + 1 < n := by
          have : ¬ n ≤ k + 1 := by
            intro h; exact hend (by exact_mod_cast h)
          omega
        have hv : (k : ℚ) * (1 / (n : ℚ)) + 1 / (n : ℚ) = ((k + 1 : Nat) : ℚ) * (1 / (n : ℚ)) := by
          push_cast; ring
        rw [hv]
        have hI' : l ≤ natural_level n (k + 1) :=
          le_trans hI (natural_level_mono n (Nat.le_succ k))
        have hJ' : k + 1 + 1 = n / 2 → l = level_of_index n (k + 1) := by
          intro hf
          have hnf : ¬ (k + 1 = n / 2) := by omega
          have h1 : natural_level n k ≤ l := by
            rcases hc with h | h
            · exact h
            · exact absurd (by exact_mod_cast h) hnf
          unfold level_of_index
          rw [if_pos hf]
          have : k + 1 - 1 = k := by omega
          rw [this]
          omega
        obtain ⟨k', h1, h2, h3, h4, h5⟩ :=
          ih (k + 1) (store_byte str (thresh + thresh_index fm width k) (255 - (l : Int)))
            (by omega) hkn hI' hJ'
        refine ⟨k', by omega, h2, h3, ?_, h5⟩
        rw [h4]
        have : k' - k = (k' - (k + 1)) + 1 := by omega
        rw [this, stores_succ, hlev]
    · rw [if_neg hc]
      have hc' := not_or.mp hc
      refine ⟨k, le_refl k, le_of_lt hk, rfl, ?_, fun _ => ⟨rfl, by omega, ?_⟩⟩
      · rw [Nat.sub_self, stores_zero]
      · intro hf
        exact hc'.2 (by exact_mod_cast hf)


/-- The level loop, entered at a level not beyond the window of the current index,
consumes the whole turn-on sequence and performs exactly the stores of
`level_of_index`. -/
theorem sweep_levels_spec (fm : htsc_dig_grid_t) (thresh width : Int) (n : Nat) (hn : 0 < n) :
    ∀ (d l k : Nat) (str : List Nat), 256 - l = d → k < n → l ≤ natural_level n k →
      (k + 1 = n / 2 → l = level_of_index n k) →
      (sweep_levels fm thresh width (n : Int) (1 / (n : ℚ)) l
          ⟨k, (k : ℚ) * (1 / (n : ℚ)), str⟩).cur_pix = n ∧
      (sweep_levels fm thresh width (n : Int) (1 / (n : ℚ)) l
          ⟨k, (k : ℚ) * (1 / (n : ℚ)), str⟩).str = stores fm thresh width n str k (n - k) := by
  intro d
  induction d with
  | zero =>
    intro l k str hd hk hI _
    have := natural_level_le n k hk
    omega
  | succ d ih =>
    intro l k str hd hk hI hJ
    have hl : l < 256 := by
      have := natural_level_le n k hk
      omega
    obtain ⟨k', h1, h2, h3, h4, h5⟩ :=
      sweep_while_spec fm thresh width n hn l hl (n - k) k str rfl hk hI hJ
    rw [sweep_levels, if_pos hl]
    simp only []
    generalize sweep_while fm thresh width (n : Int) (1 / (n : ℚ))
          (if (((1 + l : Nat) : ℚ) / 255) > 255 then (255 : ℚ) else (((1 + l : Nat) : ℚ) / 255))
          l ⟨k, (k : ℚ) * (1 / (n : ℚ)), str⟩ = r at h3 h4 h5
    obtain ⟨rp, rv, rs⟩ := r
    simp only [] at h3 h4 h5
    subst h3 h4
    by_cases hend : rp < n
    · have hge : ¬ ((rp : Int) ≥ (n : Int)) := by
        intro h; have : n ≤ rp := by exact_mod_cast h
        omega
      rw [if_neg hge]
      obtain ⟨h6, h7, h8⟩ := h5 hend
      subst h6
      obtain ⟨g1, g2⟩ := ih (l + 1) rp (stores fm thresh width n str k (rp - k))
        (by omega) hend (by omega) (fun hf => absurd hf h8)
      refine ⟨g1, ?_⟩
      rw [g2]
      have := stores_append fm thresh width n str k (rp - k) (n - rp)
      rw [show k + (rp - k) = rp by omega, show (rp - k) + (n - rp) = n - k by omega] at this
      exact this
    · have hk' : rp = n := by omega
      have hge : ((rp : Int) ≥ (n : Int)) := by rw [hk']
      rw [if_pos hge]
      exact ⟨hk', by rw [hk']⟩

theorem sweep_fill_done (fm : htsc_dig_grid_t) (thresh width num_pix : Int) (s : sweep_state)
    (h : num_pix ≤ (s.cur_pix : Int)) : sweep_fill fm thresh width num_pix s = s := by
  rw [sweep_fill, if_neg (by omega)]

/-- The closed form of the threshold synthesis: for a mask of `n ≥ 1` cells the
block stores `255 - level_of_index n k` for every index `k` in turn, and the trailing
fill loop stores nothing. -/
theorem make_thresholds_eq (fm : htsc_dig_grid_t) (thresh : Int) (str : List Nat) (n : Nat)
    (hn : 0 < n) (hfm : fm.width * fm.height = (n : Int)) :
    make_thresholds fm thresh str = stores fm thresh fm.width n str 0 n := by
  unfold make_thresholds
  simp only [hfm, Int.cast_natCast]
  have h0 : (0 : ℚ) = ((0 : Nat) : ℚ) * (1 / (n : ℚ)) := by simp
  rw [h0]
  obtain ⟨g1, g2⟩ := sweep_levels_spec fm thresh fm.width n hn 256 0 0 str rfl hn
    (Nat.zero_le _) (by
      intro hf
      unfold level_of_index natural_level
      rw [if_pos hf]
      symm
      apply Nat.div_eq_of_lt
      omega)
  rw [sweep_fill_done _ _ _ _ _ (by rw [g1]), g2, Nat.sub_zero]


/-! ## Reading the string after the stores -/

theorem length_store_byte (str : List Nat) (i v : Int) :
    (store_byte str i v).length = str.length := by
  unfold store_byte
  split <;> simp

theorem byte_at_store_byte_ne (str : List Nat) (i j v : Int) (h : i ≠ j) :
    byte_at (store_byte str i v) j = byte_at str j := by
  unfold store_byte byte_at
  by_cases hi : 0 ≤ i
  · by_cases hj : 0 ≤ j
    · have hne : i.toNat ≠ j.toNat := by omega
      simp [hi, hj, List.getD_eq_getElem?_getD, List.getElem?_set, hne]
    · simp [hj]
  · simp [hi]

theorem byte_at_store_byte_eq (str : List Nat) (i v : Int) (h0 : 0 ≤ i)
    (h1 : i < str.length) (hv0 : 0 ≤ v) (hv1 : v < 256) :
    byte_at (store_byte str i v) i = v.toNat := by
  unfold store_byte byte_at
  have hlt : i.toNat < str.length := by omega
  have hv : v % 256 = v := Int.emod_eq_of_lt hv0 hv1
  simp [h0, List.getD_eq_getElem?_getD, List.getElem?_set, hlt, hv]

theorem stores_succ_last (fm : htsc_dig_grid_t) (thresh width : Int) (n : Nat)
    (str : List Nat) (a m : Nat) :
    stores fm thresh width n str a (m + 1) =
      store_byte (stores fm thresh width n str a m)
        (thresh + thresh_index fm width (a + m)) (255 - (level_of_index n (a + m) : Int)) := by
  simp [stores, List.range'_concat, List.foldl_append]

theorem length_stores (fm : htsc_dig_grid_t) (thresh width : Int) (n : Nat)
    (str : List Nat) (a m : Nat) :
    (stores fm thresh width n str a m).length = str.length := by
  induction m with
  | zero => rw [stores_zero]
  | succ m ih => rw [stores_succ_last, length_store_byte, ih]

/-- A byte that none of the stores addresses keeps its value. -/
theorem byte_at_stores_miss (fm : htsc_dig_grid_t) (thresh width : Int) (n : Nat)
    (str : List Nat) (a m : Nat) (p : Int)
    (h : ∀ j, a ≤ j → j < a + m → thresh + thresh_index fm width j ≠ p) :
    byte_at (stores fm thresh width n str a m) p = byte_at str p := by
  induction m with
  | zero => rw [stores_zero]
  | succ m ih =>
    rw [stores_succ_last, byte_at_store_byte_ne _ _ _ _ (h (a + m) (by omega) (by omega))]
    exact ih (fun j h1 h2 => h j h1 (by omega))

theorem level_of_index_le (n k : Nat) (hk : k < n) : level_of_index n k ≤ 254 := by
  unfold level_of_index
  apply natural_level_le
  split <;> omega

/-- A byte addressed by the store of index `k`, and by no other store, holds the
threshold of index `k`. -/
theorem byte_at_stores_hit (fm : htsc_dig_grid_t) (thresh width : Int) (n : Nat)
    (str : List Nat) (a m : Nat) (ham : a + m ≤ n)
    (hrange : ∀ j, j < n → 0 ≤ thresh + thresh_index fm width j ∧
      thresh + thresh_index fm width j < str.length)
    (hinj : ∀ i j, i < n → j < n → thresh_index fm width i = thresh_index fm width j → i = j)
    (k : Nat) (hak : a ≤ k) (hkm : k < a + m) :
    byte_at (stores fm thresh width n str a m) (thresh + thresh_index fm width k) =
      threshold_of_index n k := by
  induction m with
  | zero => omega
  | succ m ih =>
    rw [stores_succ_last]
    by_cases hk : k = a + m
    · subst hk
      have hl := level_of_index_le n (a + m) (by omega)
      obtain ⟨r0, r1⟩ := hrange (a + m) (by omega)
      rw [byte_at_store_byte_eq _ _ _ r0 (by rw [length_stores]; exact r1) (by omega) (by omega)]
      unfold threshold_of_index
      omega
    · have hne : thresh + thresh_index fm width (a + m) ≠ thresh + thresh_index fm width k := by
        intro he
        have := hinj (a + m) k (by omega) (by omega) (by omega)
        omega
      rw [byte_at_store_byte_ne _ _ _ _ hne]
      exact ih (by omega) (by omega)

/-! ## Cells and their subscripts -/

theorem thresh_index_inj (w x y x' y' : Int) (hx : 0 ≤ x) (hxw : x < w) (hx' : 0 ≤ x')
    (hxw' : x' < w) (h : x + w * y = x' + w * y') : x = x' ∧ y = y' := by
  have hw : 0 < w := by omega
  have h1 : (x + w * y) % w = x := by
    rw [Int.add_mul_emod_self_left]; exact Int.emod_eq_of_lt hx hxw
  have h2 : (x' + w * y') % w = x' := by
    rw [Int.add_mul_emod_self_left]; exact Int.emod_eq_of_lt hx' hxw'
  have hxx : x = x' := by rw [← h1, ← h2, h]
  subst hxx
  have : w * y = w * y' := by omega
  exact ⟨rfl, Int.eq_of_mul_eq_mul_left (by omega) this⟩

theorem thresh_index_bound (w h x y : Int) (hx : 0 ≤ x) (hxw : x < w) (hy : 0 ≤ y)
    (hyh : y < h) : 0 ≤ x + w * y ∧ x + w * y < w * h := by
  have hw : 0 < w := by omega
  constructor
  · have := mul_nonneg (le_of_lt hw) hy
    omega
  · have : w * (y + 1) ≤ w * h := Int.mul_le_mul_of_nonneg_left (by omega) (le_of_lt hw)
    have e : w * (y + 1) = w * y + w := by ring
    omega

/-- For a sequence of pairwise distinct in-range cells, the subscripts the sweep
uses lie inside the `n` threshold bytes and are pairwise distinct. -/
theorem cells_subscripts (fm : htsc_dig_grid_t) (n : Nat)
    (hfm : fm.width * fm.height = (n : Int)) (hv : distinct_in_range_cells fm) :
    (∀ j, j < n → 0 ≤ thresh_index fm fm.width j ∧ thresh_index fm fm.width j < (n : Int)) ∧
    (∀ i j, i < n → j < n →
      thresh_index fm fm.width i = thresh_index fm fm.width j → i = j) := by
  obtain ⟨hr, hd⟩ := hv
  rw [hfm, Int.toNat_ofNat] at hr hd
  constructor
  · intro j hj
    obtain ⟨a, b, c, d⟩ := hr j hj
    have := thresh_index_bound fm.width fm.height _ _ a b c d
    rw [hfm] at this
    exact this
  · intro i j hi hj he
    obtain ⟨a, b, _, _⟩ := hr i hi
    obtain ⟨a', b', _, _⟩ := hr j hj
    have := thresh_index_inj fm.width _ _ _ _ a b a' b' he
    rcases Nat.lt_trichotomy i j with h | h | h
    · exact absurd ⟨this.1.symm, this.2.symm⟩ (hd j hj i h)
    · exact h
    · exact absurd this (hd i hi j h)

/-- The threshold synthesis read back: on a string with room for the `n` bytes after
`thresh`, the byte of the `k`-th cell of a sequence of distinct in-range cells is
`threshold_of_index n k`. -/
theorem make_thresholds_cell (fm : htsc_dig_grid_t) (thresh : Int) (str : List Nat) (n : Nat)
    (hfm : fm.width * fm.height = (n : Int)) (hv : distinct_in_range_cells fm)
    (h0 : 0 ≤ thresh) (hlen : thresh + (n : Int) ≤ str.length) (k : Nat) (hk : k < n) :
    byte_at (make_thresholds fm thresh str) (thresh + thresh_index fm fm.width k) =
      threshold_of_index n k := by
  obtain ⟨hr, hi⟩ := cells_subscripts fm n hfm hv
  rw [make_thresholds_eq fm thresh str n (by omega) hfm]
  apply byte_at_stores_hit fm thresh fm.width n str 0 n (by omega) _ hi k (Nat.zero_le _)
    (by omega)
  intro j hj
  have := hr j hj
  omega

theorem length_make_thresholds (fm : htsc_dig_grid_t) (thresh : Int) (str : List Nat) (n : Nat)
    (hn : 0 < n) (hfm : fm.width * fm.height = (n : Int)) :
    (make_thresholds fm thresh str).length = str.length := by
  rw [make_thresholds_eq fm thresh str n hn hfm, length_stores]

theorem level_of_index_mono (n : Nat) {i j : Nat} (h : i ≤ j) :
    level_of_index n i ≤ level_of_index n j := by
  unfold level_of_index
  apply natural_level_mono
  split <;> split <;> omega


/-! ## The threshold synthesis: monotonicity, windows, midpoint -/

/-- C1: in the threshold synthesis of zgenordered, for every width and height and
every turn-on sequence of pairwise distinct in-range cells, the thresholds are
monotonic with the turn-on order: for sequence indices i < j the byte stored for the
i-th cell is at least the byte stored for the j-th cell. -/
theorem thresholds_monotonic (fm : htsc_dig_grid_t) (thresh : Int) (str : List Nat)
    (hv : distinct_in_range_cells fm) (h0 : 0 ≤ thresh)
    (hlen : thresh + fm.width * fm.height ≤ str.length)
    (i j : Nat) (hij : i < j) (hj : (j : Int) < fm.width * fm.height) :
    byte_at (make_thresholds fm thresh str) (thresh + thresh_index fm fm.width i) ≥
      byte_at (make_thresholds fm thresh str) (thresh + thresh_index fm fm.width j) := by
  obtain ⟨n, hn⟩ := Int.eq_ofNat_of_zero_le (by omega : 0 ≤ fm.width * fm.height)
  rw [hn] at hlen hj
  have hjn : j < n := by exact_mod_cast hj
  rw [make_thresholds_cell fm thresh str n hn hv h0 hlen i (by omega),
    make_thresholds_cell fm thresh str n hn hv h0 hlen j hjn]
  have := level_of_index_mono n (le_of_lt hij)
  unfold threshold_of_index
  omega

theorem thresholds_monotonic_witness :
    byte_at (make_thresholds mask_2x2 4 (List.replicate 8 0)) (4 + thresh_index mask_2x2 2 1) ≥
      byte_at (make_thresholds mask_2x2 4 (List.replicate 8 0)) (4 + thresh_index mask_2x2 2 3) :=
  thresholds_monotonic mask_2x2 4 (List.replicate 8 0) (by decide) (by decide) (by decide)
    1 3 (by decide) (by decide)

/-- C2: for every num_pix ≥ 1 and every sequence index k below num_pix other than the
forced index num_pix/2 - 1, the threshold stored for the k-th cell of the turn-on
sequence is 255 - L, where L is the least level in 0..255 with
k/num_pix < (L+1)/255 - (1/num_pix)/256, in exact arithmetic. -/
theorem threshold_is_least_level (fm : htsc_dig_grid_t) (thresh : Int) (str : List Nat)
    (n : Nat) (hn : 1 ≤ n) (hfm : fm.width * fm.height = (n : Int))
    (hv : distinct_in_range_cells fm) (h0 : 0 ≤ thresh)
    (hlen : thresh + (n : Int) ≤ str.length)
    (k : Nat) (hk : k < n) (hforced : (k : Int) ≠ Int.tdiv (n : Int) 2 - 1) :
    ∃ L : Nat, L ≤ 255 ∧
      (k : ℚ) / (n : ℚ) < ((L : ℚ) + 1) / 255 - (1 / (n : ℚ)) / 256 ∧
      (∀ L' : Nat, L' < L →
        ¬ ((k : ℚ) / (n : ℚ) < ((L' : ℚ) + 1) / 255 - (1 / (n : ℚ)) / 256)) ∧
      byte_at (make_thresholds fm thresh str) (thresh + thresh_index fm fm.width k) =
        255 - L := by
  have hwin : ∀ l : Nat, l < 256 →
      ((k : ℚ) / (n : ℚ) < ((l : ℚ) + 1) / 255 - (1 / (n : ℚ)) / 256 ↔
        natural_level n k ≤ l) := by
    intro l hl
    have hlq : ((1 + l : Nat) : ℚ) / 255 ≤ 255 := by
      rw [div_le_iff₀ (by norm_num)]
      have : ((1 + l : Nat) : ℚ) ≤ 256 := by exact_mod_cast (by omega : 1 + l ≤ 256)
      linarith
    have := below_iff n k l hn hl
    rw [if_neg (not_lt.mpr hlq)] at this
    rw [← this]
    push_cast
    constructor <;> intro h <;> linarith [h, (by ring : (k : ℚ) / (n : ℚ) = k * (1 / n)),
      (by ring : (1 / (n : ℚ)) / 256 = 1 / n * (1 / 256)),
      (by ring : ((l : ℚ) + 1) / 255 = (1 + l) / 255)]
  have hnf : ¬ (k + 1 = n / 2) := by
    intro h
    apply hforced
    rw [tdiv_two]
    omega
  have hL := natural_level_le n k hk
  refine ⟨natural_level n k, by omega, (hwin _ (by omega)).2 (le_refl _), ?_, ?_⟩
  · intro L' hL' hc
    have := (hwin L' (by omega)).1 hc
    omega
  · rw [make_thresholds_cell fm thresh str n hfm hv h0 hlen k hk]
    unfold threshold_of_index level_of_index
    rw [if_neg hnf]

theorem threshold_is_least_level_witness :
    ∃ L : Nat, L ≤ 255 ∧
      ((3 : Nat) : ℚ) / ((4 : Nat) : ℚ) < ((L : ℚ) + 1) / 255 - (1 / ((4 : Nat) : ℚ)) / 256 ∧
      (∀ L' : Nat, L' < L →
        ¬ (((3 : Nat) : ℚ) / ((4 : Nat) : ℚ) <
            ((L' : ℚ) + 1) / 255 - (1 / ((4 : Nat) : ℚ)) / 256)) ∧
      byte_at (make_thresholds mask_2x2 4 (List.replicate 8 0))
          (4 + thresh_index mask_2x2 mask_2x2.width 3) = 255 - L :=
  threshold_is_least_level mask_2x2 4 (List.replicate 8 0) 4 (by decide) (by decide)
    (by decide) (by decide) (by decide) 3 (by decide) (by decide)


theorem natural_level_midpoint (n : Nat) (hn : 1 ≤ n) :
    natural_level n (n / 2) = 127 ↔ (n % 2 = 0 ∨ 254 ≤ n) := by
  have h1 := natural_level_le_iff n (n / 2) 127 (by omega)
  have h2 := natural_level_le_iff n (n / 2) 126 (by omega)
  constructor
  · intro h
    have : ¬ (natural_level n (n / 2) ≤ 126) := by omega
    rw [h2] at this
    omega
  · intro h
    have a : natural_level n (n / 2) ≤ 127 := by rw [h1]; omega
    have b : ¬ (natural_level n (n / 2) ≤ 126) := by rw [h2]; omega
    omega

/-- C9, as stated, fails: in a 3x1 mask the cell at sequence index floor(3/2) = 1
is stored with threshold 170 (level 85), not the midpoint 128. -/
theorem midpoint_index_not_always_128 :
    byte_at (make_thresholds mask_3x1 0 [0, 0, 0]) (0 + thresh_index mask_3x1 mask_3x1.width (3 / 2))
        = 170 ∧
      byte_at (make_thresholds mask_3x1 0 [0, 0, 0])
        (0 + thresh_index mask_3x1 mask_3x1.width (3 / 2)) ≠ 128 := by
  have h := make_thresholds_cell mask_3x1 0 [0, 0, 0] 3 (by decide) (by decide) (by decide)
    (by decide) 1 (by decide)
  have e : threshold_of_index 3 1 = 170 := by decide
  rw [e] at h
  exact ⟨h, by rw [h]; decide⟩

/-- C9 (amended): for every turn-on sequence of num_pix ≥ 1 distinct in-range cells,
the cell at sequence index floor(num_pix/2) is stored with the midpoint threshold 128
(level 127) exactly when num_pix is even or num_pix ≥ 255; for the odd sizes below
255 its threshold is larger. -/
theorem midpoint_index_threshold (fm : htsc_dig_grid_t) (thresh : Int) (str : List Nat)
    (n : Nat) (hn : 1 ≤ n) (hfm : fm.width * fm.height = (n : Int))
    (hv : distinct_in_range_cells fm) (h0 : 0 ≤ thresh)
    (hlen : thresh + (n : Int) ≤ str.length) :
    (byte_at (make_thresholds fm thresh str) (thresh + thresh_index fm fm.width (n / 2)) = 128
      ↔ (n % 2 = 0 ∨ 255 ≤ n)) ∧
    128 ≤ byte_at (make_thresholds fm thresh str) (thresh + thresh_index fm fm.width (n / 2)) := by
  rw [make_thresholds_cell fm thresh str n hfm hv h0 hlen (n / 2) (by omega)]
  have hm := natural_level_midpoint n hn
  have hle := (natural_level_le_iff n (n / 2) 127 (by omega)).2 (by omega)
  have hl := natural_level_le n (n / 2) (by omega)
  unfold threshold_of_index level_of_index
  rw [if_neg (by omega)]
  constructor
  · constructor
    · intro h
      have : natural_level n (n / 2) = 127 := by omega
      have := hm.1 this
      omega
    · intro h
      have := hm.2 (by omega)
      omega
  · omega

theorem midpoint_index_threshold_witness :
    (byte_at (make_thresholds mask_2x2 4 (List.replicate 8 0))
        (4 + thresh_index mask_2x2 mask_2x2.width (4 / 2)) = 128 ↔ (4 % 2 = 0 ∨ 255 ≤ 4)) ∧
      128 ≤ byte_at (make_thresholds mask_2x2 4 (List.replicate 8 0))
        (4 + thresh_index mask_2x2 mask_2x2.width (4 / 2)) :=
  midpoint_index_threshold mask_2x2 4 (List.replicate 8 0) 4 (by decide) (by decide)
    (by decide) (by decide) (by decide)

/-! ## The operator: parameter phase and dispatch -/

/-- The path of `zgenordered` through the screen generator: with a readable
dictionary, a recognised output type, accepted parameters and a successful generator
run, the result is the `switch` on the output type followed by the mapping of `code`
at `done`. -/
theorem zgenordered_generated (env : genordered_env) (entries : List (String × ref))
    (rest : List ref) (ot : output_format_type) (params : htsc_param_t)
    (ho : genordered_output_type (ref.t_dictionary true entries) = Except.ok ot)
    (hp : genordered_screen_params env (ref.t_dictionary true entries) = Except.ok params)
    (hg : 0 ≤ (env.htsc_gen_ordered params).1) :
    zgenordered env (ref.t_dictionary true entries :: rest) =
      ⟨if (genordered_output env ot (env.htsc_gen_ordered params).2
            (ref.t_dictionary true entries)).1 < 0 then gs_error_undefined else 0,
        (genordered_output env ot (env.htsc_gen_ordered params).2
            (ref.t_dictionary true entries)).2 :: rest, 1⟩ := by
  unfold zgenordered
  simp only [ho, hp, if_neg (not_lt.mpr hg)]
  simp

theorem output_type_ThreshString (op : ref)
    (h : dict_find_string op "OutputType" = some (ref.t_name "ThreshString".data)) :
    genordered_output_type op = Except.ok output_format_type.OUTPUT_RAW := by
  unfold genordered_output_type
  rw [h]
  rfl

theorem output_type_TOSArray (op : ref)
    (h : dict_find_string op "OutputType" = some (ref.t_name "TOSArray".data)) :
    genordered_output_type op = Except.ok output_format_type.OUTPUT_TOS := by
  unfold genordered_output_type
  rw [h]
  rfl

theorem output_type_Type3 (op : ref)
    (h : dict_find_string op "OutputType" = some (ref.t_name "Type3".data)) :
    genordered_output_type op = Except.ok output_format_type.OUTPUT_PS := by
  unfold genordered_output_type
  rw [h]
  rfl

theorem output_type_absent (op : ref) (h : dict_find_string op "OutputType" = none) :
    genordered_output_type op = Except.ok output_format_type.OUTPUT_PS := by
  unfold genordered_output_type
  rw [h]

theorem output_type_other (op : ref) (namestr : List Char)
    (h : dict_find_string op "OutputType" = some (ref.t_name namestr))
    (h1 : namestr ≠ "TOSArray".data) (h2 : namestr ≠ "Type3".data)
    (h3 : namestr ≠ "ThreshString".data) :
    genordered_output_type op = Except.error gs_error_undefined := by
  unfold genordered_output_type
  rw [h]
  have e : ∀ (k : Nat) (l : List Char), namestr.length = k → namestr.take k = l → namestr = l := by
    intro k l hk ht
    rw [← ht, ← hk, List.take_length]
  simp only []
  rw [if_neg (fun hc => h1 (e _ _ hc.1 hc.2)), if_neg (fun hc => h2 (e _ _ hc.1 hc.2)),
    if_neg (fun hc => h3 (e _ _ hc.1 hc.2))]

/-! ## The raw blob and the Type 3 dictionary -/

theorem byte_at_store_byte_self (str : List Nat) (i v : Int) (h0 : 0 ≤ i)
    (h1 : i < str.length) : byte_at (store_byte str i v) i = (v % 256).toNat := by
  unfold store_byte byte_at
  have hlt : i.toNat < str.length := by omega
  simp [h0, List.getD_eq_getElem?_getD, List.getElem?_set, hlt]

theorem ialloc_string_some (env : genordered_env) (nbytes : Int)
    (h : env.string_avail nbytes = true) :
    ∃ str, ialloc_string env nbytes = some str ∧ str.length = nbytes.toNat := by
  unfold ialloc_string
  rw [if_pos h]
  exact ⟨_, rfl, by simp⟩

/-- The `OUTPUT_RAW` case of the `switch`: when the string is allocated, `*op`
becomes a string of `4 + n` bytes whose first four bytes are the stored halves of the
width and the height, and whose byte at `4 + x + width*y` is the threshold of the
cell `(x, y)`. -/
theorem genordered_output_raw (env : genordered_env) (fm : htsc_dig_grid_t) (op : ref)
    (n : Nat) (hn : 1 ≤ n) (hfm : fm.width * fm.height = (n : Int))
    (hv : distinct_in_range_cells fm)
    (halloc : env.string_avail (4 + fm.width * fm.height) = true) :
    ∃ str, genordered_output env output_format_type.OUTPUT_RAW fm op = (0, ref.t_string str) ∧
      str.length = 4 + n ∧
      byte_at str 0 = ((fm.width >>> 8) % 256).toNat ∧
      byte_at str 1 = ((Int.land fm.width 0xff) % 256).toNat ∧
      byte_at str 2 = ((fm.height >>> 8) % 256).toNat ∧
      byte_at str 3 = ((Int.land fm.height 0xff) % 256).toNat ∧
      ∀ k, k < n → byte_at str (4 + thresh_index fm fm.width k) = threshold_of_index n k := by
  obtain ⟨str0, hs, hl⟩ := ialloc_string_some env _ halloc
  have hl0 : str0.length = 4 + n := by rw [hl, hfm]; omega
  obtain ⟨hr, hi⟩ := cells_subscripts fm n hfm hv
  have hmiss : ∀ (s : List Nat) (p : Int), p < 4 →
      byte_at (make_thresholds fm 4 s) p = byte_at s p := by
    intro s p hp
    rw [make_thresholds_eq fm 4 s n (by omega) hfm]
    apply byte_at_stores_miss
    intro j _ hj
    have := (hr j (by omega)).1
    omega
  refine ⟨make_thresholds fm 4 (store_byte (store_byte (store_byte (store_byte str0 0
      (fm.width >>> 8)) 1 (Int.land fm.width 0xff)) 2 (fm.height >>> 8)) 3
      (Int.land fm.height 0xff)), ?_, ?_, ?_, ?_, ?_, ?_, ?_⟩
  · unfold genordered_output
    simp only [hs]
  · rw [length_make_thresholds fm 4 _ n (by omega) hfm]
    simp only [length_store_byte]
    exact hl0
  · rw [hmiss _ 0 (by omega), byte_at_store_byte_ne _ _ _ _ (by omega),
      byte_at_store_byte_ne _ _ _ _ (by omega), byte_at_store_byte_ne _ _ _ _ (by omega),
      byte_at_store_byte_self _ _ _ (by omega) (by omega)]
  · rw [hmiss _ 1 (by omega), byte_at_store_byte_ne _ _ _ _ (by omega),
      byte_at_store_byte_ne _ _ _ _ (by omega),
      byte_at_store_byte_self _ _ _ (by omega) (by simp only [length_store_byte]; omega)]
  · rw [hmiss _ 2 (by omega), byte_at_store_byte_ne _ _ _ _ (by omega),
      byte_at_store_byte_self _ _ _ (by omega) (by simp only [length_store_byte]; omega)]
  · rw [hmiss _ 3 (by omega),
      byte_at_store_byte_self _ _ _ (by omega) (by simp only [length_store_byte]; omega)]
  · intro k hk
    apply make_thresholds_cell fm 4 _ n hfm hv (by omega) _ k hk
    simp only [length_store_byte]
    omega

theorem tos_loop_eq (fm : htsc_dig_grid_t) (bound : Int) (i : Nat) (refs : List ref) :
    tos_loop fm bound i refs =
      if (i : Int) < bound then
        tos_loop fm bound (i + 1) (refs.set (i + 2) (ref.t_integer (data_at fm i)))
      else refs := by
  rw [tos_loop]

/-- The copy loop of the turn-on array: elements `i+2 .. b+1` receive the data, the
others are kept. -/
theorem tos_loop_get (fm : htsc_dig_grid_t) (b : Nat) :
    ∀ (m i : Nat) (refs : List ref), b - i = m → refs.length = b + 2 →
      (tos_loop fm (b : Int) i refs).length = b + 2 ∧
      ∀ j, (tos_loop fm (b : Int) i refs)[j]? =
        if i + 2 ≤ j ∧ j < b + 2 then some (ref.t_integer (data_at fm (j - 2))) else refs[j]? := by
  intro m
  induction m with
  | zero =>
    intro i refs hm hl
    rw [tos_loop_eq, if_neg (by omega)]
    refine ⟨hl, fun j => ?_⟩
    rw [if_neg (by omega)]
  | succ m ih =>
    intro i refs hm hl
    rw [tos_loop_eq, if_pos (by omega)]
    obtain ⟨h1, h2⟩ := ih (i + 1) (refs.set (i + 2) (ref.t_integer (data_at fm i)))
      (by omega) (by rw [List.length_set]; exact hl)
    refine ⟨h1, fun j => ?_⟩
    rw [h2 j]
    by_cases hj : i + 1 + 2 ≤ j ∧ j < b + 2
    · rw [if_pos hj, if_pos (by omega)]
    · rw [if_neg hj]
      by_cases hj' : i + 2 = j
      · subst hj'
        rw [if_pos (by omega), List.getElem?_set, if_pos rfl, if_pos (by omega)]
        simp
      · rw [List.getElem?_set, if_neg hj', if_neg (by omega)]

theorem coordinate_pairs_filterMap (data : List Int) :
    (data.map ref.t_integer).filterMap (fun r =>
      match r with
      | ref.t_integer v => some v
      | _ => none) = data := by
  induction data with
  | nil => rfl
  | cons a t ih => simp [List.filterMap_cons, ih]

/-- The `OUTPUT_TOS` case of the `switch`: when the array is allocated, `*op` becomes
the array `[width, height, data[0], data[1], ...]`. -/
theorem genordered_output_tos (env : genordered_env) (fm : htsc_dig_grid_t) (op : ref)
    (hdata : (fm.data.length : Int) = 2 * fm.width * fm.height)
    (halloc : 0 ≤ env.array_code (2 + 2 * fm.width * fm.height)) :
    genordered_output env output_format_type.OUTPUT_TOS fm op =
      (env.array_code (2 + 2 * fm.width * fm.height),
        ref.t_array a_all (ref.t_integer fm.width :: ref.t_integer fm.height ::
          fm.data.map ref.t_integer)) := by
  unfold genordered_output
  simp only [if_neg (not_lt.mpr halloc)]
  congr 2
  rw [← hdata]
  have hsz : (2 + (fm.data.length : Int)).toNat = fm.data.length + 2 := by omega
  rw [hsz]
  obtain ⟨h1, h2⟩ := tos_loop_get fm fm.data.length fm.data.length 0
    ((((List.range (fm.data.length + 2)).map env.fresh_ref).set 0
      (ref.t_integer fm.width)).set 1 (ref.t_integer fm.height)) (by omega) (by simp)
  apply List.ext_getElem?
  intro j
  rw [h2 j]
  match j with
  | 0 => simp
  | 1 => simp
  | j + 2 =>
    simp only [List.getElem?_cons_succ, List.getElem?_map, Nat.add_sub_cancel]
    by_cases hj : j < fm.data.length
    · rw [if_pos (by omega)]
      simp [data_at, List.getD_eq_getElem?_getD, List.getElem?_eq_getElem hj]
    · rw [if_neg (by omega)]
      simp [List.getElem?_eq_none (not_lt.mp hj)]
      omega
/-! ## The three output encodings -/

/-- C4: for OutputType TOSArray, zgenordered returns an array of exactly
2 + 2*width*height integers [width, height, x0, y0, x1, y1, ...] whose element i+2 is
final_mask.data[i]; decoding that array (the first two elements as width and height,
the rest as (x, y) pairs) gives back the width, the height and the sequence. -/
theorem TOSArray_round_trip (env : genordered_env) (entries : List (String × ref))
    (rest : List ref) (params : htsc_param_t) (fm : htsc_dig_grid_t)
    (hout : dict_find_string (ref.t_dictionary true entries) "OutputType" =
      some (ref.t_name "TOSArray".data))
    (hp : genordered_screen_params env (ref.t_dictionary true entries) = Except.ok params)
    (hg : 0 ≤ (env.htsc_gen_ordered params).1)
    (hfm : (env.htsc_gen_ordered params).2 = fm)
    (hdata : (fm.data.length : Int) = 2 * fm.width * fm.height)
    (halloc : 0 ≤ env.array_code (2 + 2 * fm.width * fm.height)) :
    ∃ arr, zgenordered env (ref.t_dictionary true entries :: rest) =
        ⟨0, ref.t_array a_all arr :: rest, 1⟩ ∧
      (arr.length : Int) = 2 + 2 * fm.width * fm.height ∧
      arr[0]? = some (ref.t_integer fm.width) ∧
      arr[1]? = some (ref.t_integer fm.height) ∧
      (∀ i : Nat, (i : Int) < 2 * fm.width * fm.height →
        arr[i + 2]? = some (ref.t_integer (data_at fm i))) ∧
      decode_TOSArray (ref.t_array a_all arr) =
        some (fm.width, fm.height, coordinate_pairs fm.data) := by
  have h1 := genordered_output_tos env fm (ref.t_dictionary true entries) hdata halloc
  refine ⟨ref.t_integer fm.width :: ref.t_integer fm.height :: fm.data.map ref.t_integer,
    ?_, ?_, by simp, by simp, ?_, ?_⟩
  · rw [zgenordered_generated env entries rest _ params (output_type_TOSArray _ hout) hp hg,
      hfm, h1]
    simp only [if_neg (not_lt.mpr halloc)]
  · rw [← hdata]
    simp only [List.length_cons, List.length_map]
    push_cast
    ring
  · intro i hi
    rw [← hdata] at hi
    have hi' : i < fm.data.length := by exact_mod_cast hi
    simp [data_at, List.getD_eq_getElem?_getD, List.getElem?_eq_getElem hi']
  · unfold decode_TOSArray
    simp only [coordinate_pairs_filterMap]

theorem TOSArray_round_trip_witness :
    ∃ arr, zgenordered sample_env (ref.t_dictionary true (sample_entries "TOSArray") :: []) =
        ⟨0, ref.t_array a_all arr :: [], 1⟩ ∧
      (arr.length : Int) = 2 + 2 * mask_2x2.width * mask_2x2.height ∧
      arr[0]? = some (ref.t_integer mask_2x2.width) ∧
      arr[1]? = some (ref.t_integer mask_2x2.height) ∧
      (∀ i : Nat, (i : Int) < 2 * mask_2x2.width * mask_2x2.height →
        arr[i + 2]? = some (ref.t_integer (data_at mask_2x2 i))) ∧
      decode_TOSArray (ref.t_array a_all arr) =
        some (mask_2x2.width, mask_2x2.height, coordinate_pairs mask_2x2.data) :=
  TOSArray_round_trip sample_env (sample_entries "TOSArray") [] sample_screen_params mask_2x2
    rfl rfl (by decide) rfl (by decide) (by decide)

theorem output_type_error (op : ref) (e : Int)
    (hout : ∀ r, dict_find_string op "OutputType" = some r → ∃ s, r = ref.t_name s)
    (h : genordered_output_type op = Except.error e) : e = gs_error_undefined := by
  unfold genordered_output_type at h
  cases hf : dict_find_string op "OutputType" with
  | none => rw [hf] at h; exact Except.noConfusion h
  | some r =>
    obtain ⟨s, rfl⟩ := hout r hf
    rw [hf] at h
    simp only [] at h
    repeat' split at h
    all_goals first
      | exact Except.noConfusion h
      | exact (Except.error.inj h).symm

theorem screen_params_bad_frequency (env : genordered_env) (op : ref)
    (hf : dict_find_string op "Frequency" = some (ref.t_integer 0) ∨
      dict_find_string op "Frequency" = some (ref.t_real 0)) :
    genordered_screen_params env op = Except.error gs_error_undefined := by
  have hfr : ∀ v, (dict_int_param op "Frequency" 1 0x7fff 75 v).1 < 0 := by
    intro v
    unfold dict_int_param
    rcases hf with h | h <;> rw [h] <;> simp [gs_error_rangecheck]
  unfold genordered_screen_params
  lift_lets
  extract_lets
  split
  · rfl
  · split
    · rfl
    · rename_i h
      exact absurd (hfr _) h

/-- C6: the OutputType dispatch of zgenordered.  The name TOSArray selects the
turn-on coordinate array, Type3 the halftone dictionary, ThreshString the raw blob;
an absent OutputType key selects Type3; every other name (names are compared byte
for byte, so also one that differs in case only) makes the operator fail with
undefined, leaving the operand stack as it was, before any screen is generated. -/
theorem OutputType_dispatch (env : genordered_env) (entries : List (String × ref))
    (rest : List ref) :
    (dict_find_string (ref.t_dictionary true entries) "OutputType" =
        some (ref.t_name "TOSArray".data) →
      genordered_output_type (ref.t_dictionary true entries) =
        Except.ok output_format_type.OUTPUT_TOS) ∧
    (dict_find_string (ref.t_dictionary true entries) "OutputType" =
        some (ref.t_name "Type3".data) →
      genordered_output_type (ref.t_dictionary true entries) =
        Except.ok output_format_type.OUTPUT_PS) ∧
    (dict_find_string (ref.t_dictionary true entries) "OutputType" =
        some (ref.t_name "ThreshString".data) →
      genordered_output_type (ref.t_dictionary true entries) =
        Except.ok output_format_type.OUTPUT_RAW) ∧
    (dict_find_string (ref.t_dictionary true entries) "OutputType" = none →
      genordered_output_type (ref.t_dictionary true entries) =
        Except.ok output_format_type.OUTPUT_PS) ∧
    (∀ ot params, genordered_output_type (ref.t_dictionary true entries) = Except.ok ot →
      genordered_screen_params env (ref.t_dictionary true entries) = Except.ok params →
      0 ≤ (env.htsc_gen_ordered params).1 →
      (zgenordered env (ref.t_dictionary true entries :: rest)).o_stack =
        (genordered_output env ot (env.htsc_gen_ordered params).2
          (ref.t_dictionary true entries)).2 :: rest) ∧
    (∀ namestr, dict_find_string (ref.t_dictionary true entries) "OutputType" =
        some (ref.t_name namestr) →
      namestr ≠ "TOSArray".data → namestr ≠ "Type3".data → namestr ≠ "ThreshString".data →
      zgenordered env (ref.t_dictionary true entries :: rest) =
        ⟨gs_error_undefined, ref.t_dictionary true entries :: rest, 0⟩) := by
  refine ⟨output_type_TOSArray _, output_type_Type3 _, output_type_ThreshString _,
    output_type_absent _, ?_, ?_⟩
  · intro ot params ho hp hg
    rw [zgenordered_generated env entries rest ot params ho hp hg]
  · intro namestr h h1 h2 h3
    have := output_type_other _ namestr h h1 h2 h3
    unfold zgenordered
    simp only [this]
    simp

theorem OutputType_dispatch_witness :
    zgenordered sample_env (ref.t_dictionary true (sample_entries "type3") :: []) =
      ⟨gs_error_undefined, ref.t_dictionary true (sample_entries "type3") :: [], 0⟩ :=
  (OutputType_dispatch sample_env (sample_entries "type3") []).2.2.2.2.2 "type3".data rfl
    (by decide) (by decide) (by decide)

/-- C7, as stated, fails: with Frequency = 0 the operator returns undefined (-21),
not rangecheck (-15). -/
theorem zero_frequency_not_rangecheck :
    (zgenordered sample_env (ref.t_dictionary true zero_frequency_entries :: [])).code =
        gs_error_undefined ∧
      (zgenordered sample_env (ref.t_dictionary true zero_frequency_entries :: [])).code ≠
        gs_error_rangecheck := by
  have h : (zgenordered sample_env (ref.t_dictionary true zero_frequency_entries :: [])).code =
      gs_error_undefined := rfl
  exact ⟨h, by rw [h]; decide⟩

/-- C7 (amended): when the parameter dictionary has Frequency = 0 (and OutputType,
if present, is a name), the operator fails with undefined: the rangecheck that the
parameter lookup reports is replaced by gs_error_undefined, the operand stack is left
as it was, and no screen is generated. -/
theorem zero_frequency_undefined (env : genordered_env) (entries : List (String × ref))
    (rest : List ref)
    (hf : dict_find_string (ref.t_dictionary true entries) "Frequency" =
        some (ref.t_integer 0) ∨
      dict_find_string (ref.t_dictionary true entries) "Frequency" = some (ref.t_real 0))
    (hout : ∀ r, dict_find_string (ref.t_dictionary true entries) "OutputType" = some r →
      ∃ s, r = ref.t_name s) :
    zgenordered env (ref.t_dictionary true entries :: rest) =
      ⟨gs_error_undefined, ref.t_dictionary true entries :: rest, 0⟩ := by
  have hp := screen_params_bad_frequency env (ref.t_dictionary true entries) hf
  unfold zgenordered
  cases ho : genordered_output_type (ref.t_dictionary true entries) with
  | error e =>
    have := output_type_error _ e hout ho
    subst this
    simp only [ho]
    simp
  | ok ot =>
    simp only [ho, hp]
    simp

theorem zero_frequency_undefined_witness :
    zgenordered sample_env (ref.t_dictionary true zero_frequency_entries :: []) =
      ⟨gs_error_undefined, ref.t_dictionary true zero_frequency_entries :: [], 0⟩ :=
  zero_frequency_undefined sample_env zero_frequency_entries [] (Or.inl rfl)
    (fun r h => by
      have h' : (none : Option ref) = some r := h
      exact Option.noConfusion h')

/-- C8, as stated, fails: when the allocation of the threshold string fails the
operator returns undefined (-21), not VMerror (-25). -/
theorem allocation_failure_not_VMerror :
    (zgenordered sample_env_nomem
        (ref.t_dictionary true (sample_entries "ThreshString") :: [])).code =
        gs_error_undefined ∧
      (zgenordered sample_env_nomem
        (ref.t_dictionary true (sample_entries "ThreshString") :: [])).code ≠
        gs_error_VMerror := by
  have h : (zgenordered sample_env_nomem
      (ref.t_dictionary true (sample_entries "ThreshString") :: [])).code =
      gs_error_undefined := rfl
  exact ⟨h, by rw [h]; decide⟩

/-- C8 (amended): when an allocation in zgenordered fails (the threshold string for
ThreshString or Type3, or the result array for TOSArray), the operator fails with
undefined, the VMerror being replaced by gs_error_undefined at `done`, and returns no
partial output: the operand stack is left as it was. -/
theorem allocation_failure_undefined (env : genordered_env) (entries : List (String × ref))
    (rest : List ref) (ot : output_format_type) (params : htsc_param_t) (fm : htsc_dig_grid_t)
    (ho : genordered_output_type (ref.t_dictionary true entries) = Except.ok ot)
    (hp : genordered_screen_params env (ref.t_dictionary true entries) = Except.ok params)
    (hg : 0 ≤ (env.htsc_gen_ordered params).1)
    (hfm : (env.htsc_gen_ordered params).2 = fm)
    (hfail :
      (ot = output_format_type.OUTPUT_TOS ∧
        env.array_code (2 + 2 * fm.width * fm.height) < 0) ∨
      (ot = output_format_type.OUTPUT_RAW ∧
        env.string_avail (4 + fm.width * fm.height) = false) ∨
      (ot = output_format_type.OUTPUT_PS ∧
        env.string_avail (fm.width * fm.height) = false)) :
    zgenordered env (ref.t_dictionary true entries :: rest) =
      ⟨gs_error_undefined, ref.t_dictionary true entries :: rest, 1⟩ := by
  rw [zgenordered_generated env entries rest ot params ho hp hg, hfm]
  rcases hfail with ⟨rfl, h⟩ | ⟨rfl, h⟩ | ⟨rfl, h⟩
  · unfold genordered_output
    simp only [if_pos h]
  · unfold genordered_output ialloc_string
    simp [h, gs_error_VMerror]
  · unfold genordered_output ialloc_string
    simp [h, gs_error_VMerror]

theorem allocation_failure_undefined_witness :
    zgenordered sample_env_nomem (ref.t_dictionary true (sample_entries "TOSArray") :: []) =
      ⟨gs_error_undefined, ref.t_dictionary true (sample_entries "TOSArray") :: [], 1⟩ :=
  allocation_failure_undefined sample_env_nomem (sample_entries "TOSArray") []
    output_format_type.OUTPUT_TOS sample_screen_params mask_2x2 rfl rfl (by decide) rfl
    (Or.inl ⟨rfl, by decide⟩)
/-! ## The 2x2 screen -/

theorem list_of_eight (s : List Nat) (h : s.length = 8) :
    s = [byte_at s 0, byte_at s 1, byte_at s 2, byte_at s 3, byte_at s 4, byte_at s 5,
      byte_at s 6, byte_at s 7] := by
  rcases s with _ | ⟨a, _ | ⟨b, _ | ⟨c, _ | ⟨d, _ | ⟨e, _ | ⟨f, _ | ⟨g, _ | ⟨i, _ | ⟨j, t⟩⟩⟩⟩⟩⟩⟩⟩⟩
  all_goals first
    | rfl
    | (simp only [List.length_cons, List.length_nil] at h; omega)

/-- The raw blob of a 2x2 screen: the header 0 2 0 2 and, for the cells in turn-on
order, the thresholds 255, 255, 128, 64. -/
theorem genordered_output_raw_2x2 (env : genordered_env) (fm : htsc_dig_grid_t) (op : ref)
    (hw : fm.width = 2) (hh : fm.height = 2) (hv : distinct_in_range_cells fm)
    (halloc : env.string_avail (4 + fm.width * fm.height) = true) :
    ∃ str, genordered_output env output_format_type.OUTPUT_RAW fm op = (0, ref.t_string str) ∧
      str.length = 8 ∧
      byte_at str 0 = 0 ∧ byte_at str 1 = 2 ∧ byte_at str 2 = 0 ∧ byte_at str 3 = 2 ∧
      byte_at str (4 + thresh_index fm fm.width 0) = 255 ∧
      byte_at str (4 + thresh_index fm fm.width 1) = 255 ∧
      byte_at str (4 + thresh_index fm fm.width 2) = 128 ∧
      byte_at str (4 + thresh_index fm fm.width 3) = 64 := by
  obtain ⟨str, h1, h2, b0, b1, b2, b3, hc⟩ :=
    genordered_output_raw env fm op 4 (by decide) (by rw [hw, hh]; rfl) hv halloc
  rw [hw] at b0 b1
  rw [hh] at b2 b3
  exact ⟨str, h1, h2, b0, b1, b2, b3, hc 0 (by decide), hc 1 (by decide), hc 2 (by decide),
    hc 3 (by decide)⟩

/-- C10, as stated, fails: for the 2x2 mask in row-major turn-on order the blob is
0 2 0 2 255 255 128 64, whose four threshold bytes are not pairwise distinct. -/
theorem blob_2x2_thresholds_repeat :
    zgenordered sample_env (ref.t_dictionary true (sample_entries "ThreshString") :: []) =
        ⟨0, ref.t_string [0, 2, 0, 2, 255, 255, 128, 64] :: [], 1⟩ ∧
      ¬ ([255, 255, 128, 64] : List Nat).Nodup := by
  constructor
  · obtain ⟨str, h1, h2, b0, b1, b2, b3, c0, c1, c2, c3⟩ :=
      genordered_output_raw_2x2 sample_env mask_2x2
        (ref.t_dictionary true (sample_entries "ThreshString")) rfl rfl (by decide) rfl
    have e0 : (4 : Int) + thresh_index mask_2x2 mask_2x2.width 0 = 4 := by decide
    have e1 : (4 : Int) + thresh_index mask_2x2 mask_2x2.width 1 = 5 := by decide
    have e2 : (4 : Int) + thresh_index mask_2x2 mask_2x2.width 2 = 6 := by decide
    have e3 : (4 : Int) + thresh_index mask_2x2 mask_2x2.width 3 = 7 := by decide
    rw [e0] at c0
    rw [e1] at c1
    rw [e2] at c2
    rw [e3] at c3
    have hs := list_of_eight str h2
    rw [b0, b1, b2, b3, c0, c1, c2, c3] at hs
    rw [zgenordered_generated sample_env (sample_entries "ThreshString") []
      output_format_type.OUTPUT_RAW sample_screen_params rfl rfl (by decide)]
    have hm : (sample_env.htsc_gen_ordered sample_screen_params).2 = mask_2x2 := rfl
    rw [hm, h1, hs]
    rfl
  · decide

/-- C10 (amended): for every 2x2 mask whose turn-on sequence is a permutation of the
four cells, the ThreshString blob has a header decoding to width 2 and height 2,
followed by exactly 4 threshold bytes which are, for the cells in turn-on order,
255, 255, 128 and 64: the first two cells share the threshold 255, so the bytes are
non-increasing in turn-on order but not pairwise distinct. -/
theorem blob_2x2_thresholds (env : genordered_env) (entries : List (String × ref))
    (rest : List ref) (params : htsc_param_t) (fm : htsc_dig_grid_t)
    (hout : dict_find_string (ref.t_dictionary true entries) "OutputType" =
      some (ref.t_name "ThreshString".data))
    (hp : genordered_screen_params env (ref.t_dictionary true entries) = Except.ok params)
    (hg : 0 ≤ (env.htsc_gen_ordered params).1)
    (hfm : (env.htsc_gen_ordered params).2 = fm)
    (hw : fm.width = 2) (hh : fm.height = 2) (hv : distinct_in_range_cells fm)
    (halloc : env.string_avail (4 + fm.width * fm.height) = true) :
    ∃ str, zgenordered env (ref.t_dictionary true entries :: rest) =
        ⟨0, ref.t_string str :: rest, 1⟩ ∧
      str.length = 4 + 4 ∧
      256 * byte_at str 0 + byte_at str 1 = 2 ∧
      256 * byte_at str 2 + byte_at str 3 = 2 ∧
      byte_at str (4 + (data_at fm 0 + fm.width * data_at fm 1)) = 255 ∧
      byte_at str (4 + (data_at fm 2 + fm.width * data_at fm 3)) = 255 ∧
      byte_at str (4 + (data_at fm 4 + fm.width * data_at fm 5)) = 128 ∧
      byte_at str (4 + (data_at fm 6 + fm.width * data_at fm 7)) = 64 := by
  obtain ⟨str, h1, h2, b0, b1, b2, b3, c0, c1, c2, c3⟩ :=
    genordered_output_raw_2x2 env fm (ref.t_dictionary true entries) hw hh hv halloc
  refine ⟨str, ?_, h2, by rw [b0, b1], by rw [b2, b3], c0, c1, c2, c3⟩
  rw [zgenordered_generated env entries rest _ params (output_type_ThreshString _ hout) hp hg,
    hfm, h1]
  rfl

theorem blob_2x2_thresholds_witness :
    ∃ str, zgenordered sample_env
        (ref.t_dictionary true (sample_entries "ThreshString") :: []) =
        ⟨0, ref.t_string str :: [], 1⟩ ∧
      str.length = 4 + 4 ∧
      256 * byte_at str 0 + byte_at str 1 = 2 ∧
      256 * byte_at str 2 + byte_at str 3 = 2 ∧
      byte_at str (4 + (data_at mask_2x2 0 + mask_2x2.width * data_at mask_2x2 1)) = 255 ∧
      byte_at str (4 + (data_at mask_2x2 2 + mask_2x2.width * data_at mask_2x2 3)) = 255 ∧
      byte_at str (4 + (data_at mask_2x2 4 + mask_2x2.width * data_at mask_2x2 5)) = 128 ∧
      byte_at str (4 + (data_at mask_2x2 6 + mask_2x2.width * data_at mask_2x2 7)) = 64 :=
  blob_2x2_thresholds sample_env (sample_entries "ThreshString") [] sample_screen_params
    mask_2x2 rfl rfl (by decide) rfl rfl rfl (by decide) rfl

/-! ## The resolution handed to the screen generator -/

/-- The resolutions among the accepted parameters: each is the value `dict_float_param`
delivers when its return code is 0 (key present), and the device resolution
otherwise. -/
theorem screen_params_dpi (env : genordered_env) (op : ref) (params : htsc_param_t)
    (h : genordered_screen_params env op = Except.ok params) :
    params.horiz_dpi =
        (if (dict_float_param op "HResolution" 300).1 = 0
          then (dict_float_param op "HResolution" 300).2 else env.HWResolution0) ∧
      params.vert_dpi =
        (if (dict_float_param op "VResolution" 300).1 = 0
          then (dict_float_param op "VResolution" 300).2 else env.HWResolution1) := by
  unfold genordered_screen_params at h
  lift_lets at h
  extract_lets p0 p1 r1 p2 r2 p3 rh p4 rv p5 rl p6 p7 rs p8 p9 rd p10 rb p11 at h
  repeat' split at h
  all_goals first
    | exact Except.noConfusion h
    | skip
  injection h with h
  subst h
  have e9h : p9.horiz_dpi = p8.horiz_dpi := by
    show (if _ then _ else _ : htsc_param_t).horiz_dpi = _
    split <;> rfl
  have e7h : p7.horiz_dpi = p6.horiz_dpi := by
    show (if _ then _ else _ : htsc_param_t).horiz_dpi = _
    split <;> rfl
  have e5h : p5.horiz_dpi = p4.horiz_dpi := by
    show (if _ then _ else _ : htsc_param_t).horiz_dpi = _
    split <;> rfl
  have e4h : p4.horiz_dpi = if rh.1 = 0 then rh.2 else env.HWResolution0 := by
    show (if _ then _ else _ : htsc_param_t).horiz_dpi = _
    split <;> rfl
  have e9v : p9.vert_dpi = p8.vert_dpi := by
    show (if _ then _ else _ : htsc_param_t).vert_dpi = _
    split <;> rfl
  have e7v : p7.vert_dpi = p6.vert_dpi := by
    show (if _ then _ else _ : htsc_param_t).vert_dpi = _
    split <;> rfl
  have e5v : p5.vert_dpi = if rv.1 = 0 then rv.2 else p4.vert_dpi := by
    show (if _ then _ else _ : htsc_param_t).vert_dpi = _
    split <;> rfl
  have e4v : p4.vert_dpi = env.HWResolution1 := by
    show (if _ then _ else _ : htsc_param_t).vert_dpi = _
    split <;> rfl
  constructor
  · show p9.horiz_dpi = _
    rw [e9h]
    show p7.horiz_dpi = _
    rw [e7h]
    show p5.horiz_dpi = _
    rw [e5h, e4h]
  · show p9.vert_dpi = _
    rw [e9v]
    show p7.vert_dpi = _
    rw [e7v]
    show p5.vert_dpi = _
    rw [e5v, e4v]

/-- C11: in zgenordered, when the HResolution (resp. VResolution) key is absent from
the parameter dictionary, the horiz_dpi (resp. vert_dpi) among the parameters handed
to the screen generator is the device's HWResolution[0] (resp. HWResolution[1]), not
the literal 300 given to dict_float_param as its default; when the key is present
with a number, that number is used. -/
theorem resolution_defaults (env : genordered_env) (op : ref) (params : htsc_param_t)
    (hp : genordered_screen_params env op = Except.ok params) :
    (dict_find_string op "HResolution" = none → params.horiz_dpi = env.HWResolution0) ∧
    (dict_find_string op "VResolution" = none → params.vert_dpi = env.HWResolution1) ∧
    (∀ v : ℚ, dict_find_string op "HResolution" = some (ref.t_real v) →
      params.horiz_dpi = v) ∧
    (∀ v : Int, dict_find_string op "HResolution" = some (ref.t_integer v) →
      params.horiz_dpi = (v : ℚ)) ∧
    (∀ v : ℚ, dict_find_string op "VResolution" = some (ref.t_real v) →
      params.vert_dpi = v) ∧
    (∀ v : Int, dict_find_string op "VResolution" = some (ref.t_integer v) →
      params.vert_dpi = (v : ℚ)) := by
  obtain ⟨hh, hv⟩ := screen_params_dpi env op params hp
  refine ⟨?_, ?_, ?_, ?_, ?_, ?_⟩
  · intro h
    rw [hh]
    simp [dict_float_param, h]
  · intro h
    rw [hv]
    simp [dict_float_param, h]
  · intro v h
    rw [hh]
    simp [dict_float_param, h]
  · intro v h
    rw [hh]
    simp [dict_float_param, h]
  · intro v h
    rw [hv]
    simp [dict_float_param, h]
  · intro v h
    rw [hv]
    simp [dict_float_param, h]

theorem resolution_defaults_witness :
    sample_screen_params_600.horiz_dpi = sample_env_600.HWResolution0 ∧
      sample_screen_params_600.vert_dpi = sample_env_600.HWResolution1 :=
  ⟨(resolution_defaults sample_env_600 (ref.t_dictionary true (sample_entries "Type3"))
      sample_screen_params_600 rfl).1 rfl,
    (resolution_defaults sample_env_600 (ref.t_dictionary true (sample_entries "Type3"))
      sample_screen_params_600 rfl).2.1 rfl⟩
/-! ## The names `.setobjtypeHT` accepts -/

theorem eq_of_length_take (s l : List Char) (k : Nat) (h : s.length = k ∧ s.take k = l) :
    s = l := by
  rw [← h.2, ← h.1, List.take_length]

/-- The outcome of `ht_object_type_from_name` for every name string. -/
theorem ht_object_type_from_name_eq (sref : List Char) :
    ht_object_type_from_name sref =
      if sref = "Default".data then (0, gs_HT_objtype_t.HT_OBJTYPE_DEFAULT)
      else if sref = "Vector".data then (0, gs_HT_objtype_t.HT_OBJTYPE_VECTOR)
      else if sref = "Image".data then (0, gs_HT_objtype_t.HT_OBJTYPE_IMAGE)
      else if sref = "Text".data then (0, gs_HT_objtype_t.HT_OBJTYPE_TEXT)
      else (gs_error_undefined, gs_HT_objtype_t.HT_OBJTYPE_DEFAULT) := by
  by_cases hD : sref = "Default".data
  · subst hD; rfl
  by_cases hV : sref = "Vector".data
  · subst hV; rfl
  by_cases hI : sref = "Image".data
  · subst hI; rfl
  by_cases hT : sref = "Text".data
  · subst hT; rfl
  rw [if_neg hD, if_neg hV, if_neg hI, if_neg hT]
  unfold ht_object_type_from_name
  rw [if_neg (fun h => hD (eq_of_length_take _ _ _ h)),
    if_neg (fun h => hV (eq_of_length_take _ _ _ h)),
    if_neg (fun h => hI (eq_of_length_take _ _ _ h)),
    if_neg (fun h => hT (eq_of_length_take _ _ _ h))]
  simp only [ite_self]

/-- C20 fails on the code: the name Default, which is none of Vector, Image and Text
(the names the comment on zsetobjtypeHT allows), is accepted by
ht_object_type_from_name (as HT_OBJTYPE_DEFAULT), and zsetobjtypeHT returns 0 for it
instead of failing with undefined. -/
theorem setobjtypeHT_accepts_Default :
    ht_object_type_from_name "Default".data = (0, gs_HT_objtype_t.HT_OBJTYPE_DEFAULT) ∧
      (zsetobjtypeHT (fun _ => 0) [ref.t_name "Default".data]).code = 0 ∧
      "Default".data ≠ "Vector".data ∧ "Default".data ≠ "Image".data ∧
      "Default".data ≠ "Text".data := by
  refine ⟨rfl, rfl, by decide, by decide, by decide⟩

/-- What the code does on every name: `ht_object_type_from_name` returns 0 exactly
for the strings Default, Vector, Image and Text, with the matching object type, and
undefined for every other name; `zsetobjtypeHT`, which reuses it, fails with
undefined, leaving the operand stack as it was, for those other names, and otherwise
copies the halftone to that object type and pops the name, unless the graphics
library reports an error.  Default is thus the only name on which the operator
departs from the three names of its comment. -/
theorem setobjtypeHT_names (copy_code : gs_HT_objtype_t → Int) (sref : List Char)
    (rest : List ref) :
    ((ht_object_type_from_name sref).1 = 0 ↔
      (sref = "Default".data ∨ sref = "Vector".data ∨ sref = "Image".data ∨
        sref = "Text".data)) ∧
    (sref = "Default".data →
      ht_object_type_from_name sref = (0, gs_HT_objtype_t.HT_OBJTYPE_DEFAULT)) ∧
    (sref = "Vector".data →
      ht_object_type_from_name sref = (0, gs_HT_objtype_t.HT_OBJTYPE_VECTOR)) ∧
    (sref = "Image".data →
      ht_object_type_from_name sref = (0, gs_HT_objtype_t.HT_OBJTYPE_IMAGE)) ∧
    (sref = "Text".data →
      ht_object_type_from_name sref = (0, gs_HT_objtype_t.HT_OBJTYPE_TEXT)) ∧
    (¬ (sref = "Default".data ∨ sref = "Vector".data ∨ sref = "Image".data ∨
        sref = "Text".data) →
      ht_object_type_from_name sref =
          (gs_error_undefined, gs_HT_objtype_t.HT_OBJTYPE_DEFAULT) ∧
        zsetobjtypeHT copy_code (ref.t_name sref :: rest) =
          ⟨gs_error_undefined, ref.t_name sref :: rest, none⟩) ∧
    ((sref = "Default".data ∨ sref = "Vector".data ∨ sref = "Image".data ∨
        sref = "Text".data) →
      0 ≤ copy_code (ht_object_type_from_name sref).2 →
      zsetobjtypeHT copy_code (ref.t_name sref :: rest) =
        ⟨0, rest, some (ht_object_type_from_name sref).2⟩) := by
  have key := ht_object_type_from_name_eq sref
  refine ⟨?_, ?_, ?_, ?_, ?_, ?_, ?_⟩
  · rw [key]
    constructor
    · intro h
      by_contra hn
      simp only [not_or] at hn
      rw [if_neg hn.1, if_neg hn.2.1, if_neg hn.2.2.1, if_neg hn.2.2.2] at h
      exact absurd h (by decide)
    · rintro (h | h | h | h) <;> subst h <;> rfl
  · intro h; subst h; rfl
  · intro h; subst h; rfl
  · intro h; subst h; rfl
  · intro h; subst h; rfl
  · intro hn
    simp only [not_or] at hn
    have e : ht_object_type_from_name sref =
        (gs_error_undefined, gs_HT_objtype_t.HT_OBJTYPE_DEFAULT) := by
      rw [key, if_neg hn.1, if_neg hn.2.1, if_neg hn.2.2.1, if_neg hn.2.2.2]
    refine ⟨e, ?_⟩
    unfold zsetobjtypeHT
    simp only [e]
    rfl
  · intro h hc
    have h0 : (ht_object_type_from_name sref).1 = 0 := by
      rcases h with h | h | h | h <;> subst h <;> rfl
    unfold zsetobjtypeHT
    simp only [h0, if_neg (not_lt.mpr hc)]
    simp

theorem setobjtypeHT_names_witness :
    zsetobjtypeHT (fun _ => 0) (ref.t_name "Image".data :: []) =
      ⟨0, [], some (ht_object_type_from_name "Image".data).2⟩ :=
  (setobjtypeHT_names (fun _ => 0) "Image".data []).2.2.2.2.2.2
    (Or.inr (Or.inr (Or.inl rfl))) (by decide)

/-! ## Type 1 font parameters: LanguageGroup and BlueScale -/

theorem lookups_4_LanguageGroup (env : font_env) (op pprivate : ref) (p : gs_type1_data) :
    (charstring_font_lookups_4 env op pprivate p).2.LanguageGroup = p.LanguageGroup := by
  unfold charstring_font_lookups_4
  lift_lets
  extract_lets
  repeat' split
  all_goals rfl

theorem lookups_3_LanguageGroup (env : font_env) (pprivate : ref) (p : gs_type1_data)
    (h : 0 ≤ (charstring_font_lookups_3 env pprivate p).1) :
    (charstring_font_lookups_3 env pprivate p).2.LanguageGroup =
        (dict_int_param pprivate "LanguageGroup" min_int max_int 0 p.LanguageGroup).2 ∧
      0 ≤ (dict_int_param pprivate "LanguageGroup" min_int max_int 0 p.LanguageGroup).1 := by
  unfold charstring_font_lookups_3 at h ⊢
  lift_lets at h ⊢
  extract_lets r1 p1 r2 p2 r3 p3 r4 at h ⊢
  by_cases h1 : r1.1 < 0
  · rw [if_pos h1] at h
    exact absurd h (not_le.mpr h1)
  · rw [if_neg h1] at h ⊢
    by_cases h2 : r2.1 < 0
    · rw [if_pos h2] at h
      exact absurd h (not_le.mpr h2)
    · rw [if_neg h2]
      refine ⟨?_, not_lt.mp h2⟩
      repeat' split
      all_goals rfl

theorem adjust_LanguageGroup (p : gs_type1_data) :
    (charstring_font_adjust p).LanguageGroup =
      if p.LanguageGroup > 1 ∨ p.LanguageGroup < 0 then 0 else p.LanguageGroup := by
  unfold charstring_font_adjust
  lift_lets
  extract_lets m p1 p2
  have e1 : p1.LanguageGroup = p.LanguageGroup := by
    show (if _ then _ else _ : gs_type1_data).LanguageGroup = _
    split <;> rfl
  show p2.LanguageGroup = _
  show (if _ then _ else _ : gs_type1_data).LanguageGroup = _
  rw [e1]
  split
  · rfl
  · exact e1

/-- The LanguageGroup left by a successful `charstring_font_params`: the value the
lookup in the Private dictionary delivers, mapped to 0 unless it is 0 or 1. -/
theorem font_params_LanguageGroup (env : font_env) (op pprivate : ref) (p : gs_type1_data)
    (h : (charstring_font_params env op pprivate p).1 = 0) :
    ∃ q : gs_type1_data,
      0 ≤ (dict_int_param pprivate "LanguageGroup" min_int max_int 0 q.LanguageGroup).1 ∧
      (charstring_font_params env op pprivate p).2.LanguageGroup =
        if (dict_int_param pprivate "LanguageGroup" min_int max_int 0 q.LanguageGroup).2 > 1 ∨
            (dict_int_param pprivate "LanguageGroup" min_int max_int 0 q.LanguageGroup).2 < 0
        then 0
        else (dict_int_param pprivate "LanguageGroup" min_int max_int 0 q.LanguageGroup).2 := by
  unfold charstring_font_params at h ⊢
  simp only [] at h ⊢
  by_cases hl : (charstring_font_lookups env op pprivate p).1 < 0
  · rw [if_pos hl] at h
    omega
  · rw [if_neg hl]
    show ∃ q, _ ∧ (charstring_font_adjust _).LanguageGroup = _
    rw [adjust_LanguageGroup]
    unfold charstring_font_lookups at hl ⊢
    simp only [] at hl ⊢
    by_cases h1 : (charstring_font_lookups_1 pprivate p).1 < 0
    · rw [if_pos h1] at hl
      exact absurd h1 hl
    · rw [if_neg h1] at hl ⊢
      by_cases h2 : (charstring_font_lookups_2 env pprivate
          (charstring_font_lookups_1 pprivate p).2).1 < 0
      · rw [if_pos h2] at hl
        exact absurd h2 hl
      · rw [if_neg h2] at hl ⊢
        by_cases h3 : (charstring_font_lookups_3 env pprivate
            (charstring_font_lookups_2 env pprivate
              (charstring_font_lookups_1 pprivate p).2).2).1 < 0
        · rw [if_pos h3] at hl
          exact absurd h3 hl
        · rw [if_neg h3]
          rw [lookups_4_LanguageGroup]
          obtain ⟨e, hc⟩ := lookups_3_LanguageGroup env pprivate _ (not_lt.mp h3)
          rw [e]
          exact ⟨_, hc, rfl⟩

/-- C13: whenever charstring_font_params returns success, the resulting LanguageGroup
is 0 or 1: a supplied value of 0 or 1 is kept, and every other supplied integer
(negative or greater than 1) is mapped to 0 rather than rejected, the lookup of
LanguageGroup accepting every value of an int. -/
theorem LanguageGroup_clamped (env : font_env) (op pprivate : ref) (p : gs_type1_data)
    (h : (charstring_font_params env op pprivate p).1 = 0) :
    ((charstring_font_params env op pprivate p).2.LanguageGroup = 0 ∨
      (charstring_font_params env op pprivate p).2.LanguageGroup = 1) ∧
    (∀ v : Int, dict_find_string pprivate "LanguageGroup" = some (ref.t_integer v) →
      (charstring_font_params env op pprivate p).2.LanguageGroup =
        if v = 0 ∨ v = 1 then v else 0) ∧
    (∀ v : Int, dict_find_string pprivate "LanguageGroup" = some (ref.t_integer v) →
      min_int ≤ v → v ≤ max_int →
      ∀ q : Int, dict_int_param pprivate "LanguageGroup" min_int max_int 0 q = (0, v)) := by
  obtain ⟨q, hc, e⟩ := font_params_LanguageGroup env op pprivate p h
  refine ⟨?_, ?_, ?_⟩
  · rw [e]
    split
    · exact Or.inl rfl
    · omega
  · intro v hv
    rw [e]
    unfold dict_int_param at hc ⊢
    rw [hv] at hc ⊢
    simp only [] at hc ⊢
    by_cases hr : v < min_int ∨ v > max_int
    · rw [if_pos hr] at hc
      have hneg : gs_error_rangecheck < 0 := by decide
      exact absurd hc (not_le.mpr hneg)
    · rw [if_neg hr]
      simp only []
      by_cases h01 : v = 0 ∨ v = 1
      · rw [if_pos h01, if_neg (by omega)]
      · rw [if_neg h01, if_pos (by omega)]
  · intro v hv h1 h2 q
    unfold dict_int_param
    rw [hv]
    simp only []
    rw [if_neg (by omega)]

theorem LanguageGroup_clamped_witness :
    ((charstring_font_params sample_font_env empty_font_dict private_LanguageGroup_7
        cleared_type1_data).2.LanguageGroup = 0 ∨
      (charstring_font_params sample_font_env empty_font_dict private_LanguageGroup_7
        cleared_type1_data).2.LanguageGroup = 1) ∧
    (charstring_font_params sample_font_env empty_font_dict private_LanguageGroup_7
        cleared_type1_data).2.LanguageGroup = (if (7 : Int) = 0 ∨ (7 : Int) = 1 then 7 else 0) :=
  ⟨(LanguageGroup_clamped sample_font_env empty_font_dict private_LanguageGroup_7
      cleared_type1_data rfl).1,
    (LanguageGroup_clamped sample_font_env empty_font_dict private_LanguageGroup_7
      cleared_type1_data rfl).2.1 7 rfl⟩

theorem find_zone_height_loop_ge (count : Int) (values : List ℚ) :
    ∀ (n i : Nat) (m : ℚ), (count - (i : Int)).toNat = n →
      m ≤ find_zone_height_loop m count values i := by
  intro n
  induction n using Nat.strong_induction_on with
  | _ n ih =>
    intro i m hn
    rw [find_zone_height_loop]
    by_cases hi : (i : Int) < count
    · rw [if_pos hi]
      simp only []
      have := ih ((count - ((i + 2 : Nat) : Int)).toNat) (by omega) (i + 2)
        (if values.getD (i + 1) 0 - values.getD i 0 > m
          then values.getD (i + 1) 0 - values.getD i 0 else m) rfl
      refine le_trans ?_ this
      split
      · rename_i h; exact le_of_lt h
      · exact le_refl m
    · rw [if_neg hi]

theorem find_zone_height_ge (m : ℚ) (count : Int) (values : List ℚ) :
    m ≤ find_zone_height m count values :=
  find_zone_height_loop_ge count values _ 0 m rfl

theorem font_max_zone_height_ge_one (p : gs_type1_data) : 1 ≤ font_max_zone_height p := by
  unfold font_max_zone_height
  simp only []
  exact le_trans (le_trans (le_trans (find_zone_height_ge _ _ _) (find_zone_height_ge _ _ _))
    (find_zone_height_ge _ _ _)) (find_zone_height_ge _ _ _)

theorem adjust_BlueScale (p : gs_type1_data) :
    (charstring_font_adjust p).BlueScale =
      if p.BlueScale * font_max_zone_height p > 1 then 1 / font_max_zone_height p
      else p.BlueScale := by
  unfold charstring_font_adjust
  lift_lets
  extract_lets m p1 p2
  have e2 : p2.BlueScale = p1.BlueScale := by
    show (if _ then _ else _ : gs_type1_data).BlueScale = _
    split <;> rfl
  show p2.BlueScale = _
  rw [e2]
  show (if _ then _ else _ : gs_type1_data).BlueScale = _
  split <;> rfl

/-- What the forcing of BlueScale achieves: after it, BlueScale times the maximum
zone height is at most 1, and exactly 1 whenever BlueScale had to be forced back. -/
theorem adjust_BlueScale_product (p : gs_type1_data) :
    (charstring_font_adjust p).BlueScale * font_max_zone_height p ≤ 1 ∧
      (p.BlueScale * font_max_zone_height p > 1 →
        (charstring_font_adjust p).BlueScale * font_max_zone_height p = 1) := by
  have hM := font_max_zone_height_ge_one p
  have hpos : (0 : ℚ) < font_max_zone_height p := by linarith
  rw [adjust_BlueScale]
  constructor
  · split
    · rw [one_div, inv_mul_cancel₀ (ne_of_gt hpos)]
    · rename_i h; exact not_lt.mp h
  · intro h
    rw [if_pos h, one_div, inv_mul_cancel₀ (ne_of_gt hpos)]

theorem find_zone_height_none (m : ℚ) (values : List ℚ) :
    find_zone_height m 0 values = m := by
  unfold find_zone_height
  rw [find_zone_height_loop, if_neg (by decide)]

theorem find_zone_height_pair (m a b : ℚ) :
    find_zone_height m 2 [a, b] = if b - a > m then b - a else m := by
  unfold find_zone_height
  rw [find_zone_height_loop, if_pos (by decide)]
  simp only []
  rw [find_zone_height_loop, if_neg (by decide)]
  rfl

/-- C14 fails on the code: for a Private dictionary with BlueScale 2 and the single
alignment zone 0..10, charstring_font_params succeeds, the maximum alignment zone
height is 10, BlueScale is forced back to 1/10, and BlueScale times the maximum zone
height is exactly 1, not less than 1. -/
theorem BlueScale_forced_to_the_limit :
    (charstring_font_params sample_font_env empty_font_dict private_BlueScale_2
        cleared_type1_data).1 = 0 ∧
      font_max_zone_height (charstring_font_lookups sample_font_env empty_font_dict
        private_BlueScale_2 cleared_type1_data).2 = 10 ∧
      (charstring_font_params sample_font_env empty_font_dict private_BlueScale_2
        cleared_type1_data).2.BlueScale = 1 / 10 ∧
      (charstring_font_params sample_font_env empty_font_dict private_BlueScale_2
        cleared_type1_data).2.BlueScale * 10 = 1 ∧
      ¬ ((charstring_font_params sample_font_env empty_font_dict private_BlueScale_2
        cleared_type1_data).2.BlueScale * 10 < 1) := by
  have hM : font_max_zone_height (charstring_font_lookups sample_font_env empty_font_dict
      private_BlueScale_2 cleared_type1_data).2 = 10 := by
    unfold font_max_zone_height
    have h1 : (charstring_font_lookups sample_font_env empty_font_dict
        private_BlueScale_2 cleared_type1_data).2.BlueValues = ⟨2, [0, 10]⟩ := rfl
    have h2 : (charstring_font_lookups sample_font_env empty_font_dict
        private_BlueScale_2 cleared_type1_data).2.OtherBlues = ⟨0, []⟩ := rfl
    have h3 : (charstring_font_lookups sample_font_env empty_font_dict
        private_BlueScale_2 cleared_type1_data).2.FamilyBlues = ⟨0, []⟩ := rfl
    have h4 : (charstring_font_lookups sample_font_env empty_font_dict
        private_BlueScale_2 cleared_type1_data).2.FamilyOtherBlues = ⟨0, []⟩ := rfl
    simp only [h1, h2, h3, h4, find_zone_height_none, find_zone_height_pair]
    norm_num
  have hB : (charstring_font_lookups sample_font_env empty_font_dict
      private_BlueScale_2 cleared_type1_data).2.BlueScale = 2 := rfl
  have hS : (charstring_font_params sample_font_env empty_font_dict private_BlueScale_2
      cleared_type1_data).2.BlueScale = 1 / 10 := by
    show (charstring_font_adjust (charstring_font_lookups sample_font_env empty_font_dict
      private_BlueScale_2 cleared_type1_data).2).BlueScale = 1 / 10
    rw [adjust_BlueScale, hM, hB]
    norm_num
  refine ⟨rfl, hM, hS, ?_, ?_⟩
  · rw [hS]; norm_num
  · rw [hS]; norm_num
/-! ## Float arrays of a function dictionary -/

theorem float_array_of_refs_length :
    ∀ (refs : List ref) (vals : List ℚ), float_array_of_refs refs = some vals →
      vals.length = refs.length := by
  intro refs
  induction refs with
  | nil =>
    intro vals h
    simp only [float_array_of_refs, Option.some.injEq] at h
    subst h
    rfl
  | cons a t ih =>
    intro vals h
    cases a with
    | t_integer v =>
      simp only [float_array_of_refs, Option.map_eq_some'] at h
      obtain ⟨l, hl, rfl⟩ := h
      simp [ih l hl]
    | t_real v =>
      simp only [float_array_of_refs, Option.map_eq_some'] at h
      obtain ⟨l, hl, rfl⟩ := h
      simp [ih l hl]
    | _ => simp [float_array_of_refs] at h

theorem land_one_natCast (n : Nat) : Int.land (n : Int) 1 = ((n % 2 : Nat) : Int) := by
  have e : Int.land (n : Int) 1 = ((n &&& 1 : Nat) : Int) := rfl
  rw [e, Nat.and_one_is_mod]

/-- The outcome of `fn_build_float_array` when the key holds an array of numbers and
the allocation succeeds: the numbers and their count, or rangecheck for an odd count
when an even one is wanted. -/
theorem fn_build_float_array_numbers (env : func_env) (op : ref) (kstr : String)
    (required even : Bool) (attrs : ref_attrs) (refs : List ref) (vals : List ℚ)
    (hf : dict_find_string op kstr = some (ref.t_array attrs refs))
    (ha : env.float_array_avail refs.length = true)
    (hv : float_array_of_refs refs = some vals) :
    fn_build_float_array env op kstr required even =
      if even = true ∧ vals.length % 2 ≠ 0 then (gs_error_rangecheck, none)
      else ((vals.length : Int), some vals) := by
  have hl := float_array_of_refs_length refs vals hv
  unfold fn_build_float_array dict_float_array_check_param
  simp only [hf, ha, hv, lt_irrefl, if_false, true_or, if_true, gt_iff_lt,
    Bool.true_eq_false, ge_iff_le, le_refl]
  simp only [← hl]
  have hneg : ¬ ((vals.length : Int) < 0) := by omega
  have hdrop : vals ++ List.drop vals.length (List.map env.fresh_float (List.range vals.length))
      = vals := by
    rw [List.drop_of_length_le (by simp), List.append_nil]
  simp only [hneg, false_or, if_false, land_one_natCast, hdrop]
  by_cases he : even = true ∧ vals.length % 2 ≠ 0
  · rw [if_pos he, if_pos ⟨he.1, by exact_mod_cast he.2⟩]
  · rw [if_neg he, if_neg (fun hc => he ⟨hc.1, by exact_mod_cast hc.2⟩)]

/-- C15, as stated, fails: with `required` set and the key missing,
fn_build_float_array returns rangecheck, not 0. -/
theorem missing_required_array_is_rangecheck :
    fn_build_float_array sample_func_env (ref.t_dictionary true []) "Domain" true true =
        (gs_error_rangecheck, none) ∧
      (fn_build_float_array sample_func_env (ref.t_dictionary true []) "Domain" true true).1
        ≠ 0 := by
  have h : fn_build_float_array sample_func_env (ref.t_dictionary true []) "Domain" true true =
      (gs_error_rangecheck, none) := rfl
  exact ⟨h, by rw [h]; decide⟩

/-- C15 (amended): fn_build_float_array, for every value of its arguments: if the key
is missing it sets *pparray = 0 and returns 0 when `required` is false, and
rangecheck when `required` is true; otherwise, on success, it sets *pparray to the
collected array and returns the number of elements, which is even when `even` is
set. -/
theorem fn_build_float_array_contract (env : func_env) (op : ref) (kstr : String)
    (required even : Bool) :
    (dict_find_string op kstr = none →
      fn_build_float_array env op kstr required even =
        (if required = true then gs_error_rangecheck else 0, none)) ∧
    (∀ par, dict_find_string op kstr = some par →
      0 ≤ (fn_build_float_array env op kstr required even).1 →
      ∃ attrs refs vals, par = ref.t_array attrs refs ∧
        float_array_of_refs refs = some vals ∧
        fn_build_float_array env op kstr required even = ((vals.length : Int), some vals) ∧
        vals.length = refs.length ∧
        (even = true → vals.length % 2 = 0)) := by
  constructor
  · intro h
    unfold fn_build_float_array
    rw [h]
  · intro par hf hc
    have hV : ¬ (0 ≤ gs_error_VMerror) := by decide
    have hT : ¬ (0 ≤ gs_error_typecheck) := by decide
    have hR : ¬ (0 ≤ gs_error_rangecheck) := by decide
    cases par with
    | t_array attrs refs =>
      by_cases ha : env.float_array_avail refs.length = true
      · cases hv : float_array_of_refs refs with
        | none =>
          exfalso
          unfold fn_build_float_array dict_float_array_check_param at hc
          simp only [hf, ha, hv, lt_irrefl, if_false, gt_iff_lt, Bool.true_eq_false] at hc
          have hlt : gs_error_typecheck < 0 := by decide
          simp only [hlt, true_or, if_true] at hc
          exact hT hc
        | some vals =>
          have e := fn_build_float_array_numbers env op kstr required even attrs refs vals
            hf ha hv
          rw [e] at hc ⊢
          by_cases he : even = true ∧ vals.length % 2 ≠ 0
          · rw [if_pos he] at hc
            exact absurd hc hR
          · rw [if_neg he]
            refine ⟨attrs, refs, vals, rfl, hv, rfl, float_array_of_refs_length refs vals hv, ?_⟩
            intro hev
            by_contra hne
            exact he ⟨hev, hne⟩
      · exfalso
        unfold fn_build_float_array at hc
        simp only [hf] at hc
        rw [if_pos (by simpa using ha)] at hc
        exact hV hc
    | _ =>
      exfalso
      unfold fn_build_float_array at hc
      simp only [hf] at hc
      exact hT hc

theorem fn_build_float_array_contract_witness :
    ∃ attrs refs vals,
      ref.t_array a_all [ref.t_integer 0, ref.t_integer 1] = ref.t_array attrs refs ∧
      float_array_of_refs refs = some vals ∧
      fn_build_float_array sample_func_env sample_function_dict "Domain" true true =
        ((vals.length : Int), some vals) ∧
      vals.length = refs.length ∧
      ((true : Bool) = true → vals.length % 2 = 0) :=
  (fn_build_float_array_contract sample_func_env sample_function_dict "Domain" true true).2
    (ref.t_array a_all [ref.t_integer 0, ref.t_integer 1]) rfl (by
      rw [fn_build_float_array_numbers sample_func_env sample_function_dict "Domain" true true
        a_all [ref.t_integer 0, ref.t_integer 1] [0, 1] rfl rfl rfl]
      decide)

/-! ## The depth of subsidiary functions and the shading domain -/

/-- C16: the maximum nesting depth of subsidiary functions is 3.  Called with
depth > 3, fn_build_sub_function returns limitcheck for every operand, before the
operand is type-checked; called with depth ≤ 3 it goes on to the checks that follow,
so that limitcheck never comes from the depth check (an operand that is not a
dictionary gives typecheck); and fn_build_function starts at depth 0. -/
theorem sub_function_depth_limit (env : func_env) (op : ref) (depth : Int)
    (shading_domain : Option (List ℚ)) (num_inputs : Int) :
    MAX_SUB_FUNCTION_DEPTH = 3 ∧
    (depth > 3 →
      fn_build_sub_function env op depth shading_domain num_inputs =
        (gs_error_limitcheck, 0)) ∧
    (depth ≤ 3 →
      fn_build_sub_function env op depth shading_domain num_inputs =
        fn_build_checked env op depth shading_domain num_inputs) ∧
    (depth ≤ 3 → (∀ readable entries, op ≠ ref.t_dictionary readable entries) →
      fn_build_sub_function env op depth shading_domain num_inputs =
        (gs_error_typecheck, 0)) ∧
    fn_build_function env op shading_domain num_inputs =
      fn_build_sub_function env op 0 shading_domain num_inputs ∧
    fn_build_function env op shading_domain num_inputs =
      fn_build_checked env op 0 shading_domain num_inputs := by
  have h3 : MAX_SUB_FUNCTION_DEPTH = 3 := rfl
  have hle : depth ≤ 3 →
      fn_build_sub_function env op depth shading_domain num_inputs =
        fn_build_checked env op depth shading_domain num_inputs := by
    intro h
    unfold fn_build_sub_function
    rw [if_neg (by rw [h3]; omega)]
  refine ⟨h3, ?_, hle, ?_, rfl, ?_⟩
  · intro h
    unfold fn_build_sub_function
    rw [if_pos (by rw [h3]; exact h)]
  · intro h hop
    rw [hle h]
    unfold fn_build_checked
    cases op with
    | t_dictionary r e => exact absurd rfl (hop r e)
    | _ => rfl
  · unfold fn_build_function fn_build_sub_function
    rw [if_neg (by rw [h3]; omega)]

theorem sub_function_depth_limit_witness :
    fn_build_sub_function sample_func_env ref.t_null 4 none 0 = (gs_error_limitcheck, 0) ∧
      fn_build_sub_function sample_func_env ref.t_null 3 none 0 = (gs_error_typecheck, 0) :=
  ⟨(sub_function_depth_limit sample_func_env ref.t_null 4 none 0).2.1 (by decide),
    (sub_function_depth_limit sample_func_env ref.t_null 3 none 0).2.2.2.1 (by decide)
      (fun _ _ h => ref.noConfusion h)⟩

theorem domain_order_loop_ok (Domain : List ℚ) (m : Int) (code : Int) :
    ∀ (n i : Nat), (m - (i : Int)).toNat = n →
      (∀ k : Nat, i ≤ k → (k : Int) < m →
        Domain.getD (2 * k) 0 ≤ Domain.getD (2 * k + 1) 0) →
      domain_order_loop Domain m (2 * i) code = code := by
  intro n
  induction n with
  | zero =>
    intro i hn _
    rw [domain_order_loop, if_neg (by push_cast; omega)]
  | succ n ih =>
    intro i hn h
    rw [domain_order_loop, if_pos (by push_cast; omega),
      if_neg (not_lt.mpr (h i (le_refl i) (by omega)))]
    have := ih (i + 1) (by push_cast; omega) (fun k hk hkm => h k (by omega) hkm)
    rw [show 2 * (i + 1) = 2 * i + 2 by ring] at this
    exact this

theorem shading_domain_loop_neg (Domain sd : List ℚ) (num_inputs : Int) (j : Nat)
    (code : Int) (h : code < 0) :
    shading_domain_loop Domain sd num_inputs j code = code := by
  rw [shading_domain_loop, if_neg (by omega)]

/-- The loop over the inputs keeps a non-negative code when every domain pair from
`i` on contains the shading's pair, and makes it rangecheck otherwise. -/
theorem shading_domain_loop_spec (Domain sd : List ℚ) (num_inputs : Int) :
    ∀ (n i : Nat) (code : Int), (num_inputs - (i : Int)).toNat = n → 0 ≤ code →
      ((∀ k : Nat, i ≤ k → (k : Int) < num_inputs →
          Domain.getD (2 * k) 0 ≤ sd.getD (2 * k) 0 ∧
          Domain.getD (2 * k + 1) 0 ≥ sd.getD (2 * k + 1) 0) →
        shading_domain_loop Domain sd num_inputs (2 * i) code = code) ∧
      (¬ (∀ k : Nat, i ≤ k → (k : Int) < num_inputs →
          Domain.getD (2 * k) 0 ≤ sd.getD (2 * k) 0 ∧
          Domain.getD (2 * k + 1) 0 ≥ sd.getD (2 * k + 1) 0) →
        shading_domain_loop Domain sd num_inputs (2 * i) code = gs_error_rangecheck) := by
  intro n
  induction n with
  | zero =>
    intro i code hn hc
    constructor
    · intro _
      rw [shading_domain_loop, if_neg (by push_cast; omega)]
    · intro h
      exfalso
      apply h
      intro k hk hkn
      omega
  | succ n ih =>
    intro i code hn hc
    have hlt : ((2 * i : Nat) : Int) < 2 * num_inputs ∧ code ≥ 0 :=
      ⟨by push_cast; omega, hc⟩
    have hstep : 2 * (i + 1) = 2 * i + 2 := by ring
    obtain ⟨ih1, ih2⟩ := ih (i + 1) code (by push_cast; omega) hc
    rw [hstep] at ih1 ih2
    constructor
    · intro h
      rw [shading_domain_loop, if_pos hlt]
      obtain ⟨p1, p2⟩ := h i (le_refl i) (by omega)
      rw [if_neg (by
        intro hc'
        rcases hc' with hc' | hc'
        · exact absurd p1 (not_le.mpr hc')
        · exact absurd p2 (not_le.mpr hc'))]
      exact ih1 (fun k hk hkn => h k (by omega) hkn)
    · intro h
      rw [shading_domain_loop, if_pos hlt]
      by_cases hp : Domain.getD (2 * i) 0 > sd.getD (2 * i) 0 ∨
          Domain.getD (2 * i + 1) 0 < sd.getD (2 * i + 1) 0
      · rw [if_pos hp]
        exact shading_domain_loop_neg _ _ _ _ _ (by decide)
      · rw [if_neg hp]
        apply ih2
        intro hall
        apply h
        intro k hk hkn
        by_cases hki : k = i
        · subst hki
          constructor
          · exact not_lt.mp (fun hc' => hp (Or.inl hc'))
          · exact not_lt.mp (fun hc' => hp (Or.inr hc'))
        · exact hall k (by omega) hkn


theorem shading_domain_check_spec (Domain sd : List ℚ) (m num_inputs code : Int)
    (hc : 0 ≤ code) :
    (domain_is_superset Domain sd m num_inputs →
      shading_domain_check Domain m (some sd) num_inputs code = code) ∧
    (¬ domain_is_superset Domain sd m num_inputs →
      shading_domain_check Domain m (some sd) num_inputs code = gs_error_rangecheck) := by
  obtain ⟨s1, s2⟩ := shading_domain_loop_spec Domain sd num_inputs _ 0 code rfl hc
  rw [Nat.mul_zero] at s1 s2
  unfold shading_domain_check domain_is_superset
  constructor
  · intro h
    simp only []
    rw [if_neg (not_not.mpr h.1)]
    exact s1 (fun k _ hk => h.2 k hk)
  · intro h
    simp only []
    by_cases hm : num_inputs = m
    · rw [if_neg (not_not.mpr hm)]
      apply s2
      intro hall
      exact h ⟨hm, fun j hj => hall j (Nat.zero_le j) hj⟩
    · rw [if_pos hm]
      exact shading_domain_loop_neg _ _ _ _ _ (by decide)

/-- C17: when fn_build_sub_function is given a shading domain, the function's Domain
must be a superset of it.  Once the build has reached this check (depth within the
limit, a dictionary whose FunctionType is in the table, a Domain of ordered pairs),
it fails with rangecheck unless num_inputs equals m (half the Domain length) and,
for every input j < num_inputs, Domain[2j] ≤ shading_domain[2j] and
Domain[2j+1] ≥ shading_domain[2j+1]; when those conditions hold the check does not
fail, the build going on as it does without a shading domain. -/
theorem shading_domain_superset (env : func_env) (readable : Bool)
    (entries : List (String × ref)) (depth : Int) (sd : List ℚ) (num_inputs : Int)
    (tc t : Int) (e : Int × (ref → gs_function_params_t → Int → Int × Nat))
    (code : Int) (Domain : List ℚ)
    (hdepth : depth ≤ MAX_SUB_FUNCTION_DEPTH)
    (hty : dict_int_param (ref.t_dictionary readable entries) "FunctionType" 0 max_int (-1) 0 =
      (tc, t))
    (htc : 0 ≤ tc)
    (hfind : env.build_function_type_table.find? (fun e => e.1 = t) = some e)
    (hd : fn_build_float_array env (ref.t_dictionary readable entries) "Domain" true true =
      (code, some Domain))
    (hcode : 0 ≤ code)
    (hord : ∀ k : Nat, (k : Int) < code >>> 1 →
      Domain.getD (2 * k) 0 ≤ Domain.getD (2 * k + 1) 0) :
    (¬ domain_is_superset Domain sd (code >>> 1) num_inputs →
      fn_build_sub_function env (ref.t_dictionary readable entries) depth (some sd) num_inputs =
        (gs_error_rangecheck, 0)) ∧
    (domain_is_superset Domain sd (code >>> 1) num_inputs →
      fn_build_sub_function env (ref.t_dictionary readable entries) depth (some sd) num_inputs =
        fn_build_sub_function env (ref.t_dictionary readable entries) depth none num_inputs) := by
  have hord' := domain_order_loop_ok Domain (code >>> 1) code _ 0 rfl
    (fun k _ hk => hord k hk)
  rw [Nat.mul_zero] at hord'
  obtain ⟨c1, c2⟩ := shading_domain_check_spec Domain sd (code >>> 1) num_inputs code hcode
  have hreach : ∀ sdo : Option (List ℚ),
      fn_build_sub_function env (ref.t_dictionary readable entries) depth sdo num_inputs =
        if shading_domain_check Domain (code >>> 1) sdo num_inputs code < 0 then
          (shading_domain_check Domain (code >>> 1) sdo num_inputs code, 0)
        else
          if (fn_build_float_array env (ref.t_dictionary readable entries) "Range"
              false true).1 < 0 then
            ((fn_build_float_array env (ref.t_dictionary readable entries) "Range"
              false true).1, 0)
          else
            e.2 (ref.t_dictionary readable entries)
              ⟨code >>> 1, some Domain,
                (fn_build_float_array env (ref.t_dictionary readable entries) "Range"
                  false true).1 >>> 1,
                (fn_build_float_array env (ref.t_dictionary readable entries) "Range"
                  false true).2⟩ (depth + 1) := by
    intro sdo
    unfold fn_build_sub_function fn_build_checked fn_build_common
    simp only [if_neg (not_lt.mpr hdepth), hty, if_neg (not_lt.mpr htc), hfind, hd,
      if_neg (not_lt.mpr hcode), Option.getD_some, hord']
  constructor
  · intro h
    rw [hreach, c2 h, if_pos (by decide)]
  · intro h
    rw [hreach, hreach, c1 h]
    rfl

theorem shading_domain_superset_witness :
    fn_build_sub_function sample_func_env sample_function_dict 0 (some [-1, 2]) 1 =
      (gs_error_rangecheck, 0) :=
  (shading_domain_superset sample_func_env true
    [("FunctionType", ref.t_integer 2),
      ("Domain", ref.t_array a_all [ref.t_integer 0, ref.t_integer 1])]
    0 [-1, 2] 1 0 2 (2, fun _ _ _ => (0, 42)) 2 [0, 1]
    (by decide) rfl (by decide) rfl
    (fn_build_float_array_numbers sample_func_env sample_function_dict "Domain" true true
      a_all [ref.t_integer 0, ref.t_integer 1] [0, 1] rfl rfl rfl)
    (by decide)
    (fun k hk => by
      have hk0 : k = 0 := by
        have : ((2 : Int) >>> 1) = 1 := by decide
        rw [this] at hk
        omega
      subst hk0
      show ((0 : ℚ) ≤ 1)
      norm_num)).1
    (fun h => by
      have h0 := (h.2 0 (by decide)).1
      have h1 : ((0 : ℚ) ≤ -1) := h0
      norm_num at h1)

/-! ## Function procedures -/

theorem make_function_proc_ok (env : func_env) (op : ref) (pfn : Nat)
    (h : 0 ≤ (make_function_proc env op pfn).1) :
    make_function_proc env op pfn =
      (0, ref.t_array (attrs_or a_executable a_execute)
        [ref.t_struct (attrs_or a_executable a_execute) pfn,
          ref.t_operator a_executable op_proc.zexecfunction]) := by
  unfold make_function_proc at h ⊢
  simp only [] at h ⊢
  by_cases hc : env.closure_code < 0
  · rw [if_pos hc] at h
    exact absurd h (not_le.mpr hc)
  · rw [if_neg hc]

theorem ref_function_closure (pfn : Nat) :
    ref_function (ref.t_array (attrs_or a_executable a_execute)
      [ref.t_struct (attrs_or a_executable a_execute) pfn,
        ref.t_operator a_executable op_proc.zexecfunction]) = pfn := by
  unfold ref_function
  dsimp only
  rw [if_pos (by decide)]

/-- When the build succeeds and the allocation of the closure fails, `zbuildfunction`
returns 0 and leaves the dictionary on the operand stack. -/
theorem zbuildfunction_closure_failure (env : func_env) (op : ref) (rest : List ref)
    (hb : 0 ≤ (fn_build_function env op none 0).1) (hc : env.closure_code < 0) :
    zbuildfunction env (op :: rest) = (0, op :: rest) := by
  unfold zbuildfunction make_function_proc
  simp only [if_neg (not_lt.mpr hb), if_pos hc]

theorem sample_function_builds :
    fn_build_function sample_func_env_nomem sample_function_dict none 0 = (0, 42) := by
  have hD : fn_build_float_array sample_func_env_nomem sample_function_dict "Domain" true true =
      (2, some [0, 1]) :=
    fn_build_float_array_numbers sample_func_env_nomem sample_function_dict "Domain" true true
      a_all [ref.t_integer 0, ref.t_integer 1] [0, 1] rfl rfl rfl
  have hR : fn_build_float_array sample_func_env_nomem sample_function_dict "Range" false true =
      (0, none) := rfl
  have hO : domain_order_loop [0, 1] ((2 : Int) >>> 1) 0 2 = 2 := by
    have := domain_order_loop_ok [0, 1] ((2 : Int) >>> 1) 2 _ 0 rfl (fun k _ hk => by
      have hk0 : k = 0 := by
        have : ((2 : Int) >>> 1) = 1 := by decide
        rw [this] at hk
        omega
      subst hk0
      show ((0 : ℚ) ≤ 1)
      norm_num)
    rw [Nat.mul_zero] at this
    exact this
  have hT : dict_int_param sample_function_dict "FunctionType" 0 max_int (-1) 0 = (0, 2) := rfl
  have hF : sample_func_env_nomem.build_function_type_table.find? (fun e => e.1 = 2) =
      some (2, fun _ _ _ => (0, 42)) := rfl
  unfold fn_build_function fn_build_sub_function fn_build_checked fn_build_common
    shading_domain_check
  unfold sample_function_dict at hD hR hT ⊢
  simp only [hT, hF, hD, hR, Option.getD_some, hO]
  decide

/-- C18 fails on the code: for a function dictionary that builds, when the
allocation of the closure in make_function_proc fails, zbuildfunction returns 0
(success) although the top of the operand stack is still the dictionary, for which
ref_function returns 0; make_function_proc itself reports VMerror. -/
theorem zbuildfunction_success_without_function :
    zbuildfunction sample_func_env_nomem [sample_function_dict] =
        (0, [sample_function_dict]) ∧
      ref_function sample_function_dict = 0 ∧
      (make_function_proc sample_func_env_nomem sample_function_dict 42).1 =
        gs_error_VMerror ∧
      (make_function_proc sample_func_env_nomem sample_function_dict 42).1 < 0 := by
  refine ⟨?_, rfl, rfl, by decide⟩
  apply zbuildfunction_closure_failure
  · rw [sample_function_builds]
  · decide

/-- The attributes a masked test for `a_executable | a_execute` within
`a_executable | a_all` lets through: executable, execute, neither read nor write. -/
theorem masked_attrs_execute_only (attrs : ref_attrs)
    (h : r_has_masked_attrs attrs (attrs_or a_executable a_execute)
      (attrs_or a_executable a_all)) :
    attrs.executable = true ∧ attrs.execute = true ∧ attrs.read = false ∧
      attrs.write = false := by
  obtain ⟨w, r, x, e⟩ := attrs
  unfold r_has_masked_attrs attrs_and attrs_or a_executable a_execute a_all at h
  simp only [Bool.or_false, Bool.or_true, Bool.false_or, Bool.true_or, Bool.and_true,
    ref_attrs.mk.injEq] at h
  exact ⟨h.2.2.2, h.2.2.1, h.2.1, h.1⟩

/-- C19: ref_function recognises exactly the encapsulated functions made by
.buildfunction: for every function structure pfn, if make_function_proc(op, pfn)
succeeds then ref_function(op) returns pfn (so that .isencapfunction pushes true);
and ref_function returns 0 for any object that is not an executable, execute-only
2-element array whose second element is the zexecfunction operator and whose first
element is an executable, execute-only structure. -/
theorem ref_function_recognises (env : func_env) (op : ref) (pfn : Nat) (rest : List ref) :
    (0 ≤ (make_function_proc env op pfn).1 →
      (make_function_proc env op pfn).1 = 0 ∧
      ref_function (make_function_proc env op pfn).2 = pfn ∧
      is_function_proc (make_function_proc env op pfn).2 ∧
      (pfn ≠ 0 →
        zisencapfunction ((make_function_proc env op pfn).2 :: rest) =
          (0, ref.t_boolean true :: rest))) ∧
    (¬ is_function_proc op → ref_function op = 0) := by
  constructor
  · intro h
    rw [make_function_proc_ok env op pfn h]
    refine ⟨rfl, ref_function_closure pfn, ?_, ?_⟩
    · exact ⟨_, _, _, rfl, rfl, rfl, rfl, rfl, _, _, Or.inl rfl, rfl, rfl, rfl, rfl⟩
    · intro hp
      unfold zisencapfunction
      simp only []
      rw [if_pos (by decide), ref_function_closure]
      simp [hp]
  · intro hn
    by_contra hne
    apply hn
    unfold ref_function at hne
    split at hne
    · rename_i attrs sattrs pstruct oattrs opproc
      by_cases hc : r_has_masked_attrs attrs (attrs_or a_executable a_execute)
          (attrs_or a_executable a_all) ∧
          attrs_and oattrs a_executable = a_executable ∧
          opproc = op_proc.zexecfunction ∧
          r_has_masked_attrs sattrs (attrs_or a_executable a_execute)
            (attrs_or a_executable a_all)
      · obtain ⟨h1, _, h3, h4⟩ := hc
        obtain ⟨a1, a2, a3, a4⟩ := masked_attrs_execute_only attrs h1
        obtain ⟨b1, b2, b3, b4⟩ := masked_attrs_execute_only sattrs h4
        subst h3
        exact ⟨attrs, _, oattrs, rfl, a1, a2, a3, a4, sattrs, pstruct, Or.inl rfl,
          b1, b2, b3, b4⟩
      · rw [if_neg hc] at hne
        exact absurd rfl hne
    · rename_i attrs sattrs pstruct oattrs opproc
      by_cases hc : r_has_masked_attrs attrs (attrs_or a_executable a_execute)
          (attrs_or a_executable a_all) ∧
          attrs_and oattrs a_executable = a_executable ∧
          opproc = op_proc.zexecfunction ∧
          r_has_masked_attrs sattrs (attrs_or a_executable a_execute)
            (attrs_or a_executable a_all)
      · obtain ⟨h1, _, h3, h4⟩ := hc
        obtain ⟨a1, a2, a3, a4⟩ := masked_attrs_execute_only attrs h1
        obtain ⟨b1, b2, b3, b4⟩ := masked_attrs_execute_only sattrs h4
        subst h3
        exact ⟨attrs, _, oattrs, rfl, a1, a2, a3, a4, sattrs, pstruct, Or.inr rfl,
          b1, b2, b3, b4⟩
      · rw [if_neg hc] at hne
        exact absurd rfl hne
    · exact absurd rfl hne

theorem ref_function_recognises_witness :
    (make_function_proc sample_func_env sample_function_dict 42).1 = 0 ∧
      ref_function (make_function_proc sample_func_env sample_function_dict 42).2 = 42 ∧
      is_function_proc (make_function_proc sample_func_env sample_function_dict 42).2 ∧
      ((42 : Nat) ≠ 0 →
        zisencapfunction ((make_function_proc sample_func_env sample_function_dict 42).2 :: []) =
          (0, ref.t_boolean true :: [])) :=
  (ref_function_recognises sample_func_env sample_function_dict 42 []).1 (by decide)

/-! ## Coverage of the turn-on sequence -/

theorem coordinate_pairs_sequence_data (l : List (Int × Int)) :
    coordinate_pairs (sequence_data l) = l := by
  induction l with
  | nil => rfl
  | cons c rest ih =>
    show (c.1, c.2) :: coordinate_pairs (sequence_data rest) = c :: rest
    rw [ih]

theorem sequence_data_length (l : List (Int × Int)) :
    (sequence_data l).length = 2 * l.length := by
  induction l with
  | nil => rfl
  | cons c rest ih =>
    show (sequence_data rest).length + 1 + 1 = 2 * (rest.length + 1)
    omega

theorem sequence_data_getD (l : List (Int × Int)) (k : Nat) (hk : k < l.length) :
    (sequence_data l).getD (2 * k) 0 = (l.get ⟨k, hk⟩).1 ∧
      (sequence_data l).getD (2 * k + 1) 0 = (l.get ⟨k, hk⟩).2 := by
  induction l generalizing k with
  | nil => exact absurd hk (Nat.not_lt_zero _)
  | cons c rest ih =>
    cases k with
    | zero => exact ⟨rfl, rfl⟩
    | succ k =>
      have hk2 : k < rest.length := Nat.lt_of_succ_lt_succ hk
      have e : 2 * (k + 1) = 2 * k + 1 + 1 := by omega
      rw [e]
      exact ih k hk2

theorem grid_cells_nodup (width height : Nat) : (grid_cells width height).Nodup := by
  unfold grid_cells
  apply List.Nodup.map
  · intro p q h
    have h1 : (p.2 : Int) = q.2 := congrArg Prod.fst h
    have h2 : (p.1 : Int) = q.1 := congrArg Prod.snd h
    exact Prod.ext (Int.ofNat_inj.mp h2) (Int.ofNat_inj.mp h1)
  · exact List.Nodup.product (List.nodup_range _) (List.nodup_range _)

theorem grid_cells_length (width height : Nat) :
    (grid_cells width height).length = width * height := by
  unfold grid_cells
  have e := List.length_product (List.range height) (List.range width)
  rw [List.length_range, List.length_range] at e
  rw [List.length_map, Nat.mul_comm]
  exact e

theorem mem_grid_cells (width height : Nat) (c : Int × Int) :
    c ∈ grid_cells width height ↔
      0 ≤ c.1 ∧ c.1 < (width : Int) ∧ 0 ≤ c.2 ∧ c.2 < (height : Int) := by
  unfold grid_cells
  rw [List.mem_map]
  constructor
  · rintro ⟨⟨y, x⟩, hm, rfl⟩
    have hm2 := List.mem_product.mp hm
    rw [List.mem_range, List.mem_range] at hm2
    have hm := hm2
    exact ⟨Int.ofNat_nonneg _, Int.ofNat_lt.mpr hm.2, Int.ofNat_nonneg _,
      Int.ofNat_lt.mpr hm.1⟩
  · rintro ⟨h1, h2, h3, h4⟩
    refine ⟨(c.2.toNat, c.1.toNat), ?_, ?_⟩
    · apply List.mem_product.mpr
      rw [List.mem_range, List.mem_range]
      constructor <;> omega
    · apply Prod.ext
      · exact Int.toNat_of_nonneg h1
      · exact Int.toNat_of_nonneg h3

theorem turn_on_sequence_perm (metric : Int × Int → ℚ) (width height : Nat) :
    (turn_on_sequence metric width height).Perm (grid_cells width height) :=
  List.perm_insertionSort _ _

/-- A sequence of pairwise distinct cells of the grid, stored as a mask, is a mask of
pairwise distinct in-range cells. -/
theorem sequence_mask_distinct (width height : Nat) (l : List (Int × Int))
    (hlen : l.length = width * height) (hnd : l.Nodup)
    (hmem : ∀ c ∈ l, 0 ≤ c.1 ∧ c.1 < (width : Int) ∧ 0 ≤ c.2 ∧ c.2 < (height : Int)) :
    distinct_in_range_cells ⟨(width : Int), (height : Int), sequence_data l⟩ := by
  have hn : (((width : Int) * (height : Int))).toNat = l.length := by
    rw [hlen, ← Int.natCast_mul, Int.toNat_natCast]
  unfold distinct_in_range_cells data_at
  simp only [hn]
  constructor
  · intro k hk
    obtain ⟨e1, e2⟩ := sequence_data_getD l k hk
    rw [e1, e2]
    exact hmem _ (List.get_mem l k hk)
  · intro i hi j hj hEq
    have hjl : j < l.length := Nat.lt_trans hj hi
    obtain ⟨e1, e2⟩ := sequence_data_getD l i hi
    obtain ⟨f1, f2⟩ := sequence_data_getD l j hjl
    rw [e1, e2, f1, f2] at hEq
    have hget : l.get ⟨i, hi⟩ = l.get ⟨j, hjl⟩ := Prod.ext hEq.1 hEq.2
    have hij := (List.Nodup.get_inj_iff hnd).mp hget
    have : i = j := congrArg Fin.val hij
    omega

/-- C12 (coverage completeness), for the turn-on sequence generator as the spec
describes it: whenever the generator accepts the screen parameters (returns a
non-negative code), the final mask has 2 * width * height integers, and the turn-on
sequence stored in final_mask.data is a permutation of all width*height grid cells:
it has width*height pairs, no pair occurs twice, a pair occurs in it exactly when
0 <= x < width and 0 <= y < height, and the mask satisfies the condition
distinct_in_range_cells under which the threshold sweep is verified. -/
theorem turn_on_sequence_coverage (cell_size : htsc_param_t → Option (Nat × Nat))
    (metric : htsc_param_t → Int × Int → ℚ) (params : htsc_param_t)
    (h : 0 ≤ (htsc_gen_ordered_model cell_size metric params).1) :
    (coordinate_pairs (htsc_gen_ordered_model cell_size metric params).2.data).Perm
        (grid_cells (htsc_gen_ordered_model cell_size metric params).2.width.toNat
          (htsc_gen_ordered_model cell_size metric params).2.height.toNat) ∧
      (htsc_gen_ordered_model cell_size metric params).2.data.length =
        2 * ((htsc_gen_ordered_model cell_size metric params).2.width *
          (htsc_gen_ordered_model cell_size metric params).2.height).toNat ∧
      (coordinate_pairs (htsc_gen_ordered_model cell_size metric params).2.data).length =
        ((htsc_gen_ordered_model cell_size metric params).2.width *
          (htsc_gen_ordered_model cell_size metric params).2.height).toNat ∧
      (coordinate_pairs (htsc_gen_ordered_model cell_size metric params).2.data).Nodup ∧
      (∀ x y : Int,
        (x, y) ∈ coordinate_pairs (htsc_gen_ordered_model cell_size metric params).2.data ↔
          0 ≤ x ∧ x < (htsc_gen_ordered_model cell_size metric params).2.width ∧
          0 ≤ y ∧ y < (htsc_gen_ordered_model cell_size metric params).2.height) ∧
      distinct_in_range_cells (htsc_gen_ordered_model cell_size metric params).2 := by
  unfold htsc_gen_ordered_model at h ⊢
  cases hs : cell_size params with
  | none =>
    rw [hs] at h
    have hneg : (-1 : Int) < 0 := by decide
    exact absurd h (not_le.mpr hneg)
  | some s =>
    simp only []
    have hp := turn_on_sequence_perm (metric params) s.1 s.2
    have hlen : (turn_on_sequence (metric params) s.1 s.2).length = s.1 * s.2 := by
      rw [hp.length_eq, grid_cells_length]
    have hnd : (turn_on_sequence (metric params) s.1 s.2).Nodup :=
      hp.nodup_iff.mpr (grid_cells_nodup _ _)
    have hmem : ∀ c, c ∈ turn_on_sequence (metric params) s.1 s.2 ↔
        0 ≤ c.1 ∧ c.1 < (s.1 : Int) ∧ 0 ≤ c.2 ∧ c.2 < (s.2 : Int) := fun c => by
      rw [hp.mem_iff, mem_grid_cells]
    have hn : (((s.1 : Int) * (s.2 : Int))).toNat = s.1 * s.2 := by
      rw [← Int.natCast_mul, Int.toNat_natCast]
    rw [coordinate_pairs_sequence_data, sequence_data_length, Int.toNat_natCast,
      Int.toNat_natCast, hn, hlen]
    exact ⟨hp, rfl, rfl, hnd, fun x y => hmem (x, y),
      sequence_mask_distinct s.1 s.2 _ hlen hnd (fun c hc => (hmem c).mp hc)⟩

theorem turn_on_sequence_coverage_witness :
    (htsc_gen_ordered_model (fun _ => some (3, 2)) (fun _ => round_dot_metric 3 2)
        sample_params).2.data.length = 2 * ((3 : Int) * 2).toNat ∧
      (coordinate_pairs (htsc_gen_ordered_model (fun _ => some (3, 2))
        (fun _ => round_dot_metric 3 2) sample_params).2.data).Nodup ∧
      distinct_in_range_cells (htsc_gen_ordered_model (fun _ => some (3, 2))
        (fun _ => round_dot_metric 3 2) sample_params).2 :=
  have t := turn_on_sequence_coverage (fun _ => some (3, 2)) (fun _ => round_dot_metric 3 2)
    sample_params (Int.le_refl 0)
  ⟨t.2.1, t.2.2.2.1, t.2.2.2.2.2⟩


/-! ## Initialisation of the ASCII85Decode state -/

/-- C21: s_A85D_init_inline sets min_left = 1, word = 0, odd = 0 and
require_eod = false and leaves the pdf_rules flag of the ASCII85Decode state unchanged,
for every prior state; the other fields of the common part are left unchanged too, so
the state afterwards is determined by the prior pdf_rules flag and common part. -/
theorem s_A85D_init_inline_effect (ss : stream_A85D_state) :
    (s_A85D_init_inline ss).min_left = 1 ∧
      (s_A85D_init_inline ss).word = 0 ∧
      (s_A85D_init_inline ss).odd = 0 ∧
      (s_A85D_init_inline ss).require_eod = false ∧
      (s_A85D_init_inline ss).pdf_rules = ss.pdf_rules ∧
      (s_A85D_init_inline ss).templat = ss.templat ∧
      (s_A85D_init_inline ss).memory = ss.memory ∧
      (s_A85D_init_inline ss).report_error = ss.report_error ∧
      (s_A85D_init_inline ss).error_string = ss.error_string ∧
      s_A85D_init_inline (s_A85D_init_inline ss) = s_A85D_init_inline ss :=
  ⟨rfl, rfl, rfl, rfl, rfl, rfl, rfl, rfl, rfl, rfl⟩

/-! ## The sweep consumes the whole turn-on sequence -/

theorem level_of_index_zero (n : Nat) (hn : 0 < n) : level_of_index n 0 = 0 := by
  unfold level_of_index natural_level
  have e : (if 0 + 1 = n / 2 then 0 - 1 else 0) = 0 := by split <;> rfl
  rw [e]
  apply Nat.div_eq_of_lt
  omega

/-- The level loop of `zgenordered`, run from `level = 0` on a sequence of `n ≥ 1`
cells, ends with `cur_pix = n`, having performed the stores of `level_of_index`. -/
theorem sweep_levels_all (fm : htsc_dig_grid_t) (thresh width : Int) (str : List Nat)
    (n : Nat) (hn : 0 < n) :
    (sweep_levels fm thresh width (n : Int) (1 / (n : ℚ)) 0 ⟨0, 0, str⟩).cur_pix = n ∧
      (sweep_levels fm thresh width (n : Int) (1 / (n : ℚ)) 0 ⟨0, 0, str⟩).str =
        stores fm thresh width n str 0 n := by
  have h0 : (0 : ℚ) = ((0 : Nat) : ℚ) * (1 / (n : ℚ)) := by simp
  have h := sweep_levels_spec fm thresh width n hn 256 0 0 str rfl hn (Nat.zero_le _)
    (fun _ => (level_of_index_zero n hn).symm)
  rw [← h0, Nat.sub_zero] at h
  exact h

/-- C22: in exact arithmetic, for every num_pix ≥ 1 the 256-level sweep in zgenordered
consumes every cell of the turn-on sequence (cur_pix = num_pix when the level loop
ends), each at a level no later than 254, so that the trailing loop that fills the
remaining cells assigns nothing; every stored threshold lies in 1..255 (none is 0) and
the first cell of the sequence receives 255.  For a sequence of distinct in-range
cells these are the bytes read back from the string. -/
theorem sweep_consumes_all_cells (fm : htsc_dig_grid_t) (thresh : Int) (str : List Nat)
    (n : Nat) (hn : 1 ≤ n) (hfm : fm.width * fm.height = (n : Int)) :
    (sweep_levels fm thresh fm.width (n : Int) (1 / (n : ℚ)) 0 ⟨0, 0, str⟩).cur_pix = n ∧
      sweep_fill fm thresh fm.width (n : Int)
          (sweep_levels fm thresh fm.width (n : Int) (1 / (n : ℚ)) 0 ⟨0, 0, str⟩) =
        sweep_levels fm thresh fm.width (n : Int) (1 / (n : ℚ)) 0 ⟨0, 0, str⟩ ∧
      make_thresholds fm thresh str =
        (sweep_levels fm thresh fm.width (n : Int) (1 / (n : ℚ)) 0 ⟨0, 0, str⟩).str ∧
      make_thresholds fm thresh str = stores fm thresh fm.width n str 0 n ∧
      (∀ k, k < n → level_of_index n k ≤ 254 ∧
        1 ≤ threshold_of_index n k ∧ threshold_of_index n k ≤ 255) ∧
      threshold_of_index n 0 = 255 ∧
      (distinct_in_range_cells fm → 0 ≤ thresh → thresh + (n : Int) ≤ str.length →
        (∀ k, k < n →
          1 ≤ byte_at (make_thresholds fm thresh str) (thresh + thresh_index fm fm.width k) ∧
          byte_at (make_thresholds fm thresh str) (thresh + thresh_index fm fm.width k)
            ≤ 255) ∧
        byte_at (make_thresholds fm thresh str) (thresh + thresh_index fm fm.width 0) =
          255) := by
  obtain ⟨g1, g2⟩ := sweep_levels_all fm thresh fm.width str n hn
  have hle : ∀ k, k < n → level_of_index n k ≤ 254 ∧
      1 ≤ threshold_of_index n k ∧ threshold_of_index n k ≤ 255 := by
    intro k hk
    have := level_of_index_le n k hk
    unfold threshold_of_index
    omega
  have hz : threshold_of_index n 0 = 255 := by
    unfold threshold_of_index
    rw [level_of_index_zero n hn]
  have hm := make_thresholds_eq fm thresh str n hn hfm
  refine ⟨g1, sweep_fill_done _ _ _ _ _ (by rw [g1]), by rw [hm, g2], hm, hle, hz, ?_⟩
  intro hv h0 hlen
  constructor
  · intro k hk
    rw [make_thresholds_cell fm thresh str n hfm hv h0 hlen k hk]
    exact (hle k hk).2
  · rw [make_thresholds_cell fm thresh str n hfm hv h0 hlen 0 hn]
    exact hz

theorem sweep_consumes_all_cells_witness :
    (sweep_levels mask_3x1 0 mask_3x1.width ((3 : Nat) : Int) (1 / ((3 : Nat) : ℚ)) 0
        ⟨0, 0, List.replicate 3 0⟩).cur_pix = 3 ∧
      make_thresholds mask_3x1 0 (List.replicate 3 0) =
        stores mask_3x1 0 mask_3x1.width 3 (List.replicate 3 0) 0 3 ∧
      threshold_of_index 3 0 = 255 :=
  have t := sweep_consumes_all_cells mask_3x1 0 (List.replicate 3 0) 3 (by decide) (by decide)
  ⟨t.1, t.2.2.2.1, t.2.2.2.2.2.1⟩

end Ghostpdl
